import Mathlib

/-!
Verification development for the mro-inventory stock ledger and work-order
engine.  The Python services are shallowly embedded: Django `Decimal`
quantities (fixed point, 3 fractional digits) are modelled as `Int`
(exact integer multiples of 0.001; every operation in the source uses only
addition, subtraction, comparison and absolute value, all of which commute
with the scaling), database rows are explicit records, the per-request
`transaction.atomic` wrapper is modelled by returning `Except`: an
exception anywhere inside an operation rolls the whole transaction back,
so an `.error` result leaves the caller's state untouched.  Timestamps,
notes, references and actor identities that do not influence any control
flow are dropped; fields that gate control flow (presence of item /
location / actor, the `reason` strings) are kept.
-/

namespace MRO

/-- MovementType mirrors `InventoryMovement.MovementType` in
`inventory/models.py`: IN, OUT, ADJ. -/
inductive MovementType where
  | IN_
  | OUT
  | ADJ
deriving DecidableEq, Repr

/-- Snap mirrors `StockSnapshot` (inventory/models.py): the mutable
quantity pair kept per (item, location).  `last_movement_at` is dropped
(pure timestamp). -/
structure Snap where
  on_hand : Int
  reserved : Int
deriving DecidableEq, Repr

/-- Movement mirrors `InventoryMovement` (inventory/models.py); only the
fields that influence the services' control flow or the claims are kept:
id, item, location, movement_type, quantity, and the void-marking fields
`is_void` / `void_of`. -/
structure Movement where
  id : Nat
  item_id : Nat
  location_id : Option Nat
  movement_type : MovementType
  quantity : Int
  is_void : Bool
  void_of : Option Nat
deriving DecidableEq, Repr

/-- Ledger is the relational state the stock service touches: the
`StockSnapshot` table keyed by (item_id, location_id), the
`InventoryMovement` table, and the id sequence for new movements. -/
structure Ledger where
  snaps : List ((Nat × Nat) × Snap)
  movements : List Movement
  next_id : Nat
deriving DecidableEq, Repr

/-- Lookup of the snapshot row for a key; first match wins (updates are
modelled by prepending, shadowing the stale row, which matches
read-your-writes row semantics). -/
def findSnap : List ((Nat × Nat) × Snap) → (Nat × Nat) → Option Snap
  | [], _ => none
  | (k', s) :: rest, k => if k' = k then some s else findSnap rest k

/-- Write of a snapshot row at a key. -/
def putSnap (l : List ((Nat × Nat) × Snap)) (k : Nat × Nat) (s : Snap) :
    List ((Nat × Nat) × Snap) :=
  (k, s) :: l

/-- Embedding of `StockService._get_snapshot_for_update`
(stock_service.py lines 66-80): `get_or_create` with defaults
on_hand = 0, reserved = 0.  Returns the row together with the possibly
extended table. -/
def getOrCreateSnap (l : List ((Nat × Nat) × Snap)) (k : Nat × Nat) :
    Snap × List ((Nat × Nat) × Snap) :=
  match findSnap l k with
  | some s => (s, l)
  | none => (⟨0, 0⟩, putSnap l k ⟨0, 0⟩)

/-- Lookup of a movement row by id. -/
def findMovement : List Movement → Nat → Option Movement
  | [], _ => none
  | m :: rest, i => if m.id = i then some m else findMovement rest i

/-- Err enumerates the raise sites of the embedded services, one
constructor per distinct `ValidationError` / `DoesNotExist` / `TypeError`
the Python code can raise on the modelled paths. -/
inductive Err where
  | missingItem
  | missingLocation
  | missingActor
  | nonPositiveQty
  | insufficientStock (available reserved : Int)
  | adjUseFormal
  | missingFromTo
  | sameLocation
  | insufficientAtSource (available reserved : Int)
  | zeroDelta
  | emptyReason
  | adjustBelowReserved (new_on_hand reserved : Int)
  | adjustNegative
  | missingNewOnHand
  | setNegative
  | setBelowReserved (new_on_hand reserved : Int)
  | cannotReserve (available : Int)
  | releaseExceedsReserved (reserved : Int)
  | missingMovement
  | movementNotFound
  | alreadyVoid
  | alreadyHasReversal
  | voidMissingLocation
  | voidInsufficient (available reserved : Int)
  | voidAdjDisabled
  | typeErrorMissingField
  | reserveQtyNonPositive
  | lineDoesNotExist
  | reserveBadWOStatus
  | snapshotDoesNotExist
  | reserveInsufficient (available : Int)
  | reserveNeedsLocation
  | reservationDoesNotExist
  | releaseNotActive
  | releaseQtyNonPositive
  | releaseQtyTooBig
  | releaseInconsistentSnap
  | releaseInconsistentLine
  | consumeNoLines
  | consumeBadWOStatus
  | consumeQtyNonPositive
  | consumeResNotActive
  | consumeResItemMismatch
  | consumeResLocMismatch
  | consumeResQtyExceeded
  | consumeInconsistentSnap
  | consumeInconsistentLine
  | returnNoLines
  | returnBadWOStatus
  | returnQtyNonPositive
  | cancelBadStatus
  | cancelHasConsumption
deriving Repr

/-- Embedding of the Python truthiness test `not (reason or "").strip()`:
`strip` drops leading and trailing whitespace, so the stripped string is
empty exactly when every character is whitespace. -/
def blank (s : String) : Bool := s.data.all Char.isWhitespace

/-- StockResult mirrors the frozen dataclass in stock_service.py lines
14-19: all four fields are required, none has a default. -/
structure StockResult where
  item_id : Nat
  location_id : Nat
  new_on_hand : Int
  movement_id : Nat
deriving DecidableEq, Repr

/-- TransferResult mirrors the frozen dataclass in stock_service.py. -/
structure TransferResult where
  item_id : Nat
  from_location_id : Nat
  to_location_id : Nat
  qty : Int
  from_new_on_hand : Int
  to_new_on_hand : Int
  out_movement_id : Nat
  in_movement_id : Nat
deriving DecidableEq, Repr

/-- VoidResult mirrors the frozen dataclass in stock_service.py. -/
structure VoidResult where
  original_id : Nat
  void_id : Nat
  item_id : Nat
  location_id : Nat
  new_on_hand : Int
deriving DecidableEq, Repr

/-- ReserveResult mirrors the frozen dataclass in stock_service.py. -/
structure ReserveResult where
  item_id : Nat
  location_id : Nat
  new_reserved : Int
  new_available : Int
deriving DecidableEq, Repr

/-- Embedding of `StockService.register_movement` (stock_service.py lines
85-140).  `_validate_common` checks item, location, registered_by and
quantity in that order; IN adds, OUT checks availability, ADJ is refused
(must go through adjust_delta / adjust_set).  On success the movement row
is appended and the snapshot saved. -/
def register_movement (l : Ledger) (item location registered_by : Option Nat)
    (movement_type : MovementType) (quantity : Int) :
    Except Err (Ledger × StockResult) :=
  match item, location, registered_by with
  | none, _, _ => .error .missingItem
  | some _, none, _ => .error .missingLocation
  | some _, some _, none => .error .missingActor
  | some i, some loc, some _ =>
    if quantity ≤ 0 then .error .nonPositiveQty
    else
      let (snapshot, snaps1) := getOrCreateSnap l.snaps (i, loc)
      let new_value? : Except Err Int :=
        match movement_type with
        | .IN_ => .ok (snapshot.on_hand + quantity)
        | .OUT =>
          let available := snapshot.on_hand - snapshot.reserved
          if quantity > available then
            .error (.insufficientStock available snapshot.reserved)
          else .ok (snapshot.on_hand - quantity)
        | .ADJ => .error .adjUseFormal
      match new_value? with
      | .error e => .error e
      | .ok new_value =>
        let mv : Movement :=
          { id := l.next_id, item_id := i, location_id := some loc,
            movement_type := movement_type, quantity := quantity,
            is_void := false, void_of := none }
        let l' : Ledger :=
          { snaps := putSnap snaps1 (i, loc) { snapshot with on_hand := new_value },
            movements := l.movements ++ [mv],
            next_id := l.next_id + 1 }
        .ok (l', { item_id := i, location_id := loc,
                   new_on_hand := new_value, movement_id := mv.id })

/-- Embedding of `StockService.transfer` (stock_service.py lines 145-225):
validates locations and common fields, locks the two snapshots in
ascending location-id order, checks availability at the source, then
creates one OUT and one IN movement and saves both snapshots. -/
def transfer (l : Ledger) (item : Option Nat)
    (from_location to_location : Option Nat) (quantity : Int)
    (registered_by : Option Nat) : Except Err (Ledger × TransferResult) :=
  match from_location, to_location with
  | none, _ => .error .missingFromTo
  | _, none => .error .missingFromTo
  | some f, some t =>
    if f = t then .error .sameLocation
    else
      match item, registered_by with
      | none, _ => .error .missingItem
      | some _, none => .error .missingActor
      | some i, some _ =>
        if quantity ≤ 0 then .error .nonPositiveQty
        else
          let a := min f t
          let (snap_a, snaps1) := getOrCreateSnap l.snaps (i, a)
          let (snap_b, snaps2) := getOrCreateSnap snaps1 (i, max f t)
          let snap_from := if a = f then snap_a else snap_b
          let snap_to := if a = f then snap_b else snap_a
          let available_from := snap_from.on_hand - snap_from.reserved
          if quantity > available_from then
            .error (.insufficientAtSource available_from snap_from.reserved)
          else
            let new_from := snap_from.on_hand - quantity
            let new_to := snap_to.on_hand + quantity
            let out_mv : Movement :=
              { id := l.next_id, item_id := i, location_id := some f,
                movement_type := .OUT, quantity := quantity,
                is_void := false, void_of := none }
            let in_mv : Movement :=
              { id := l.next_id + 1, item_id := i, location_id := some t,
                movement_type := .IN_, quantity := quantity,
                is_void := false, void_of := none }
            let snaps3 := putSnap snaps2 (i, f) { snap_from with on_hand := new_from }
            let snaps4 := putSnap snaps3 (i, t) { snap_to with on_hand := new_to }
            .ok ({ snaps := snaps4,
                   movements := l.movements ++ [out_mv, in_mv],
                   next_id := l.next_id + 2 },
                 { item_id := i, from_location_id := f, to_location_id := t,
                   qty := quantity, from_new_on_hand := new_from,
                   to_new_on_hand := new_to, out_movement_id := out_mv.id,
                   in_movement_id := in_mv.id })

/-- Embedding of `StockService.adjust_delta` (stock_service.py lines
230-285).  After all checks pass the source creates the ADJ movement and
saves the snapshot, but its final statement constructs the frozen
dataclass `StockResult` without the required `movement_id` field, which
raises `TypeError`; `transaction.atomic` then rolls the whole transaction
back, so the operation never commits — modelled by the unconditional
trailing error. -/
def adjust_delta (l : Ledger) (item location registered_by : Option Nat)
    (delta : Int) (reason : String) : Except Err (Ledger × StockResult) :=
  match item, location, registered_by with
  | none, _, _ => .error .missingItem
  | some _, none, _ => .error .missingLocation
  | some _, some _, none => .error .missingActor
  | some i, some loc, some _ =>
    if delta = 0 then .error .zeroDelta
    else if blank reason then .error .emptyReason
    else
      let (snapshot, _) := getOrCreateSnap l.snaps (i, loc)
      let new_on_hand := snapshot.on_hand + delta
      if new_on_hand < snapshot.reserved then
        .error (.adjustBelowReserved new_on_hand snapshot.reserved)
      else if new_on_hand < 0 then .error .adjustNegative
      else .error .typeErrorMissingField

/-- Embedding of `StockService.adjust_set` (stock_service.py lines
287-342).  It has the same defect as `adjust_delta`: the returned
`StockResult` omits the required `movement_id` field, so the operation
always raises `TypeError` after its checks and commits nothing. -/
def adjust_set (l : Ledger) (item location registered_by : Option Nat)
    (new_on_hand : Option Int) (reason : String) :
    Except Err (Ledger × StockResult) :=
  match item, location, registered_by with
  | none, _, _ => .error .missingItem
  | some _, none, _ => .error .missingLocation
  | some _, some _, none => .error .missingActor
  | some i, some loc, some _ =>
    match new_on_hand with
    | none => .error .missingNewOnHand
    | some v =>
      if v < 0 then .error .setNegative
      else if blank reason then .error .emptyReason
      else
        let (snapshot, _) := getOrCreateSnap l.snaps (i, loc)
        if v < snapshot.reserved then
          .error (.setBelowReserved v snapshot.reserved)
        else .error .typeErrorMissingField

/-- Embedding of `StockService.reserve` (stock_service.py lines 347-388):
checks the common fields, requires qty ≤ available, then increments
`reserved` only (no movement row). -/
def stock_reserve (l : Ledger) (item location reserved_by : Option Nat)
    (quantity : Int) : Except Err (Ledger × ReserveResult) :=
  match item, location, reserved_by with
  | none, _, _ => .error .missingItem
  | some _, none, _ => .error .missingLocation
  | some _, some _, none => .error .missingActor
  | some i, some loc, some _ =>
    if quantity ≤ 0 then .error .nonPositiveQty
    else
      let (snapshot, snaps1) := getOrCreateSnap l.snaps (i, loc)
      let available := snapshot.on_hand - snapshot.reserved
      if quantity > available then .error (.cannotReserve available)
      else
        let s' : Snap := { snapshot with reserved := snapshot.reserved + quantity }
        .ok ({ l with snaps := putSnap snaps1 (i, loc) s' },
             { item_id := i, location_id := loc,
               new_reserved := s'.reserved,
               new_available := s'.on_hand - s'.reserved })

/-- Embedding of `StockService.release` (stock_service.py lines 390-430):
requires qty ≤ reserved, then decrements `reserved` only. -/
def stock_release (l : Ledger) (item location released_by : Option Nat)
    (quantity : Int) : Except Err (Ledger × ReserveResult) :=
  match item, location, released_by with
  | none, _, _ => .error .missingItem
  | some _, none, _ => .error .missingLocation
  | some _, some _, none => .error .missingActor
  | some i, some loc, some _ =>
    if quantity ≤ 0 then .error .nonPositiveQty
    else
      let (snapshot, snaps1) := getOrCreateSnap l.snaps (i, loc)
      if quantity > snapshot.reserved then
        .error (.releaseExceedsReserved snapshot.reserved)
      else
        let s' : Snap := { snapshot with reserved := snapshot.reserved - quantity }
        .ok ({ l with snaps := putSnap snaps1 (i, loc) s' },
             { item_id := i, location_id := loc,
               new_reserved := s'.reserved,
               new_available := s'.on_hand - s'.reserved })

/-- Check for the reverse one-to-one accessor `movement.voided_by_movement`
used by `void_movement`: true when some movement's `void_of` points at
the given id. -/
def hasReversal (ms : List Movement) (mid : Nat) : Bool :=
  ms.any fun m => m.void_of = some mid

/-- Embedding of `StockService.void_movement` (stock_service.py lines
432-521).  The movement is passed by id (the Python caller passes the
row object); a missing id models a dangling reference.  Checks, in source
order: movement present, not already void, no reversal attached,
non-empty reason, location present; then the inverse movement is
computed (IN-void guarded by availability, ADJ-void refused), the
reversal row is created with is_void / void_of set, the original row is
flagged void, and the snapshot is saved. -/
def void_movement (l : Ledger) (movement : Option Nat) (reason : String) :
    Except Err (Ledger × VoidResult) :=
  match movement with
  | none => .error .missingMovement
  | some mid =>
    match findMovement l.movements mid with
    | none => .error .movementNotFound
    | some m =>
      if m.is_void then .error .alreadyVoid
      else if hasReversal l.movements mid then .error .alreadyHasReversal
      else if blank reason then .error .emptyReason
      else
        match m.location_id with
        | none => .error .voidMissingLocation
        | some loc =>
          let (snapshot, snaps1) := getOrCreateSnap l.snaps (m.item_id, loc)
          let step : Except Err (MovementType × Int) :=
            match m.movement_type with
            | .IN_ =>
              let available := snapshot.on_hand - snapshot.reserved
              if m.quantity > available then
                .error (.voidInsufficient available snapshot.reserved)
              else .ok (.OUT, snapshot.on_hand - m.quantity)
            | .OUT => .ok (.IN_, snapshot.on_hand + m.quantity)
            | .ADJ => .error .voidAdjDisabled
          match step with
          | .error e => .error e
          | .ok (inverse_type, new_value) =>
            let void_m : Movement :=
              { id := l.next_id, item_id := m.item_id, location_id := some loc,
                movement_type := inverse_type, quantity := m.quantity,
                is_void := true, void_of := some mid }
            let marked := l.movements.map fun r =>
              if r.id = mid then { r with is_void := true } else r
            .ok ({ snaps := putSnap snaps1 (m.item_id, loc)
                              { snapshot with on_hand := new_value },
                   movements := marked ++ [void_m],
                   next_id := l.next_id + 1 },
                 { original_id := mid, void_id := void_m.id,
                   item_id := m.item_id, location_id := loc,
                   new_on_hand := new_value })

/-- ResStatus mirrors `Reservation.Status` (workorders/models.py):
ACTIVE, RELEASED, CONSUMED. -/
inductive ResStatus where
  | ACTIVE
  | RELEASED
  | CONSUMED
deriving DecidableEq, Repr

/-- WOStatus mirrors `WorkOrder.Status` (workorders/models.py): DRAFT,
APPROVED, IN_PROGRESS, PAUSED, COMPLETED, CANCELLED. -/
inductive WOStatus where
  | DRAFT
  | APPROVED
  | IN_PROGRESS
  | PAUSED
  | COMPLETED
  | CANCELLED
deriving DecidableEq, Repr

/-- Reservation mirrors the `Reservation` row (workorders/models.py):
a soft hold on a snapshot, attached to a work-order line. -/
structure Reservation where
  id : Nat
  line_id : Nat
  item_id : Nat
  location_id : Nat
  quantity : Int
  status : ResStatus
deriving DecidableEq, Repr

/-- WOLine mirrors `WorkOrderLine` (workorders/models.py): (work_order,
item) unique, with the three cached aggregates. -/
structure WOLine where
  id : Nat
  item_id : Nat
  qty_required : Int
  qty_reserved : Int
  qty_consumed : Int
  qty_returned : Int
deriving DecidableEq, Repr

/-- IssueLine mirrors `WorkOrderIssueLine` (workorders/models.py): one
consumption row, pointing at the OUT movement it produced and optionally
at the reservation it drew from. -/
structure IssueLine where
  item_id : Nat
  location_id : Nat
  quantity : Int
  reservation_id : Option Nat
  movement_id : Nat
deriving DecidableEq, Repr

/-- RetLine mirrors `WorkOrderReturnLine` (workorders/models.py): one
return row, pointing at the IN movement it produced. -/
structure RetLine where
  item_id : Nat
  location_id : Nat
  quantity : Int
  movement_id : Nat
deriving DecidableEq, Repr

/-- ConsumeLine mirrors the request dataclass in
workorder_stock_service.py. -/
structure ConsumeLine where
  item_id : Nat
  location_id : Nat
  qty : Int
  reservation_id : Option Nat := none
deriving DecidableEq, Repr

/-- ReturnLineReq mirrors the `ReturnLine` request dataclass in
workorder_stock_service.py. -/
structure ReturnLineReq where
  item_id : Nat
  location_id : Nat
  qty : Int
deriving DecidableEq, Repr

/-- World is the relational state the work-order services touch: the
stock ledger plus one work order with its lines, reservations, issue
lines and return lines (all claims are about a single work order). -/
structure World where
  ledger : Ledger
  wo_status : WOStatus
  lines : List WOLine
  reservations : List Reservation
  next_res_id : Nat
  issue_lines : List IssueLine
  return_lines : List RetLine
deriving DecidableEq, Repr

/-- Lookup of a reservation row by id (first match). -/
def findRes : List Reservation → Nat → Option Reservation
  | [], _ => none
  | r :: rest, i => if r.id = i then some r else findRes rest i

/-- Row update of a reservation by id. -/
def updateRes (rs : List Reservation) (i : Nat) (r' : Reservation) :
    List Reservation :=
  rs.map fun r => if r.id = i then r' else r

/-- Lookup of a work-order line by primary key. -/
def findLine : List WOLine → Nat → Option WOLine
  | [], _ => none
  | ln :: rest, i => if ln.id = i then some ln else findLine rest i

/-- Row update of a work-order line by primary key. -/
def updateLine (ls : List WOLine) (i : Nat) (ln' : WOLine) : List WOLine :=
  ls.map fun ln => if ln.id = i then ln' else ln

/-- Lookup of a work-order line by item, mirroring
`WorkOrderLine.objects.get(work_order_id=…, item_id=…)` under the
(work_order, item) uniqueness constraint. -/
def findLineByItem : List WOLine → Nat → Option WOLine
  | [], _ => none
  | ln :: rest, it => if ln.item_id = it then some ln else findLineByItem rest it

/-- Row update of a work-order line addressed by item. -/
def updateLineByItem (ls : List WOLine) (it : Nat) (ln' : WOLine) :
    List WOLine :=
  ls.map fun ln => if ln.item_id = it then ln' else ln

/-- Embedding of `WorkOrderStockService.reserve`
(workorder_stock_service.py lines 54-114).  Note that unlike the stock
ledger's `_get_snapshot_for_update`, this path fetches the snapshot with
a plain `get`, so a missing (item, location) snapshot raises
`DoesNotExist` instead of being created lazily. -/
def wo_reserve (w : World) (line_id : Nat) (qty : Int)
    (location_id : Option Nat) : Except Err (World × Reservation) :=
  if qty ≤ 0 then .error .reserveQtyNonPositive
  else
    match findLine w.lines line_id with
    | none => .error .lineDoesNotExist
    | some line =>
      if w.wo_status = .DRAFT ∨ w.wo_status = .APPROVED ∨
          w.wo_status = .IN_PROGRESS then
        match location_id with
        | some loc =>
          match findSnap w.ledger.snaps (line.item_id, loc) with
          | none => .error .snapshotDoesNotExist
          | some snapshot =>
            if snapshot.on_hand - snapshot.reserved < qty then
              .error (.reserveInsufficient (snapshot.on_hand - snapshot.reserved))
            else
              let s' : Snap := { snapshot with reserved := snapshot.reserved + qty }
              let res : Reservation :=
                { id := w.next_res_id, line_id := line_id,
                  item_id := line.item_id, location_id := loc,
                  quantity := qty, status := .ACTIVE }
              let line' := { line with qty_reserved := line.qty_reserved + qty }
              .ok ({ w with
                       ledger := { w.ledger with
                         snaps := putSnap w.ledger.snaps (line.item_id, loc) s' },
                       reservations := w.reservations ++ [res],
                       next_res_id := w.next_res_id + 1,
                       lines := updateLine w.lines line_id line' },
                   res)
        | none => .error .reserveNeedsLocation
      else .error .reserveBadWOStatus

/-- Embedding of `WorkOrderStockService.release_reservation`
(workorder_stock_service.py lines 116-176): only ACTIVE reservations,
default full quantity; decrements snapshot.reserved and line.qty_reserved
with the two consistency guards, and marks the reservation RELEASED when
its remaining quantity reaches zero. -/
def release_reservation (w : World) (reservation_id : Nat)
    (qty : Option Int) : Except Err (World × Reservation) :=
  match findRes w.reservations reservation_id with
  | none => .error .reservationDoesNotExist
  | some res =>
    if res.status ≠ .ACTIVE then .error .releaseNotActive
    else
      let release_qty := qty.getD res.quantity
      if release_qty ≤ 0 then .error .releaseQtyNonPositive
      else if release_qty > res.quantity then .error .releaseQtyTooBig
      else
        match findSnap w.ledger.snaps (res.item_id, res.location_id) with
        | none => .error .snapshotDoesNotExist
        | some snapshot =>
          if snapshot.reserved < release_qty then .error .releaseInconsistentSnap
          else
            let s' : Snap := { snapshot with reserved := snapshot.reserved - release_qty }
            let remaining := res.quantity - release_qty
            let res' : Reservation :=
              if remaining = 0 then { res with status := .RELEASED }
              else { res with quantity := remaining }
            match findLine w.lines res.line_id with
            | none => .error .lineDoesNotExist
            | some line =>
              if line.qty_reserved < release_qty then
                .error .releaseInconsistentLine
              else
                let line' := { line with qty_reserved := line.qty_reserved - release_qty }
                .ok ({ w with
                         ledger := { w.ledger with
                           snaps := putSnap w.ledger.snaps
                             (res.item_id, res.location_id) s' },
                         reservations := updateRes w.reservations reservation_id res',
                         lines := updateLine w.lines res.line_id line' },
                     res')

/-- Embedding of the per-line body of `WorkOrderStockService.consume`
(workorder_stock_service.py lines 205-277): optional reservation release
(with the ACTIVE / item / location / quantity guards and the snapshot and
line consistency guards), then an unconditional stock-ledger OUT
movement, an issue line, and the qty_consumed cache bump. -/
def consume_line (w : World) (registered_by : Option Nat)
    (ln : ConsumeLine) : Except Err World :=
  if ln.qty ≤ 0 then .error .consumeQtyNonPositive
  else
    let afterRes : Except Err World :=
      match ln.reservation_id with
      | none => .ok w
      | some rid =>
        match findRes w.reservations rid with
        | none => .error .reservationDoesNotExist
        | some reservation =>
          if reservation.status ≠ .ACTIVE then .error .consumeResNotActive
          else if reservation.item_id ≠ ln.item_id then .error .consumeResItemMismatch
          else if reservation.location_id ≠ ln.location_id then .error .consumeResLocMismatch
          else if reservation.quantity < ln.qty then .error .consumeResQtyExceeded
          else
            match findSnap w.ledger.snaps (ln.item_id, ln.location_id) with
            | none => .error .snapshotDoesNotExist
            | some snap =>
              if snap.reserved < ln.qty then .error .consumeInconsistentSnap
              else
                let snap' : Snap := { snap with reserved := snap.reserved - ln.qty }
                let newQty := reservation.quantity - ln.qty
                let res' : Reservation :=
                  { reservation with
                      quantity := newQty,
                      status := if newQty = 0 then .CONSUMED else reservation.status }
                match findLine w.lines reservation.line_id with
                | none => .error .lineDoesNotExist
                | some wol =>
                  if wol.qty_reserved < ln.qty then .error .consumeInconsistentLine
                  else
                    let wol' := { wol with qty_reserved := wol.qty_reserved - ln.qty }
                    .ok { w with
                            ledger := { w.ledger with
                              snaps := putSnap w.ledger.snaps
                                (ln.item_id, ln.location_id) snap' },
                            reservations := updateRes w.reservations rid res',
                            lines := updateLine w.lines reservation.line_id wol' }
    match afterRes with
    | .error e => .error e
    | .ok w1 =>
      match register_movement w1.ledger (some ln.item_id) (some ln.location_id)
              registered_by .OUT ln.qty with
      | .error e => .error e
      | .ok (ledger', result) =>
        let il : IssueLine :=
          { item_id := ln.item_id, location_id := ln.location_id,
            quantity := ln.qty, reservation_id := ln.reservation_id,
            movement_id := result.movement_id }
        match findLineByItem w1.lines ln.item_id with
        | none => .error .lineDoesNotExist
        | some wol =>
          let wol' := { wol with qty_consumed := wol.qty_consumed + ln.qty }
          .ok { w1 with
                  ledger := ledger',
                  issue_lines := w1.issue_lines ++ [il],
                  lines := updateLineByItem w1.lines ln.item_id wol' }

/-- Loop of `consume` over its request lines; any failing line aborts the
whole batch (transaction.atomic). -/
def consumeLines (registered_by : Option Nat) :
    World → List ConsumeLine → Except Err World
  | w, [] => .ok w
  | w, ln :: rest =>
    match consume_line w registered_by ln with
    | .error e => .error e
    | .ok w1 => consumeLines registered_by w1 rest

/-- Embedding of `WorkOrderStockService.consume`
(workorder_stock_service.py lines 178-284): status must be APPROVED or
IN_PROGRESS, the batch must be non-empty, each line is processed in
order, and an APPROVED work order auto-transitions to IN_PROGRESS. -/
def consume (w : World) (registered_by : Option Nat)
    (lines : List ConsumeLine) : Except Err World :=
  if lines.isEmpty then .error .consumeNoLines
  else if w.wo_status = .APPROVED ∨ w.wo_status = .IN_PROGRESS then
    match consumeLines registered_by w lines with
    | .error e => .error e
    | .ok w1 =>
      if w1.wo_status = .APPROVED then .ok { w1 with wo_status := .IN_PROGRESS }
      else .ok w1
  else .error .consumeBadWOStatus

/-- Loop of `return_to_stock` over its request lines. -/
def returnLines (registered_by : Option Nat) :
    World → List ReturnLineReq → Except Err World
  | w, [] => .ok w
  | w, ln :: rest =>
    if ln.qty ≤ 0 then .error .returnQtyNonPositive
    else
      match register_movement w.ledger (some ln.item_id) (some ln.location_id)
              registered_by .IN_ ln.qty with
      | .error e => .error e
      | .ok (ledger', result) =>
        let rl : RetLine :=
          { item_id := ln.item_id, location_id := ln.location_id,
            quantity := ln.qty, movement_id := result.movement_id }
        match findLineByItem w.lines ln.item_id with
        | none => .error .lineDoesNotExist
        | some wol =>
          let wol' := { wol with qty_returned := wol.qty_returned + ln.qty }
          returnLines registered_by
            { w with ledger := ledger',
                     return_lines := w.return_lines ++ [rl],
                     lines := updateLineByItem w.lines ln.item_id wol' }
            rest

/-- Embedding of `WorkOrderStockService.return_to_stock`
(workorder_stock_service.py lines 286-348): status must be IN_PROGRESS or
COMPLETED; each line performs a stock-ledger IN, records a return line,
and bumps qty_returned.  Reservations are untouched. -/
def return_to_stock (w : World) (registered_by : Option Nat)
    (lines : List ReturnLineReq) : Except Err World :=
  if lines.isEmpty then .error .returnNoLines
  else if w.wo_status = .IN_PROGRESS ∨ w.wo_status = .COMPLETED then
    returnLines registered_by w lines
  else .error .returnBadWOStatus

/-- Sum of the quantities of a list of rows. -/
def sumQ (xs : List Int) : Int := xs.foldr (· + ·) 0

/-- Embedding of `WorkOrderStockService.recompute_line_caches`
(workorder_stock_service.py lines 355-381): per line, qty_reserved is
recomputed as the sum of the line's ACTIVE reservation quantities,
qty_consumed as the sum of the work order's issue-line quantities for the
line's item, and qty_returned as the sum of the return-line quantities
for the line's item. -/
def recompute_line_caches (w : World) : World :=
  { w with
      lines := w.lines.map fun line =>
        { line with
            qty_reserved := sumQ ((w.reservations.filter fun r =>
              r.line_id = line.id ∧ r.status = .ACTIVE).map (·.quantity)),
            qty_consumed := sumQ ((w.issue_lines.filter fun il =>
              il.item_id = line.item_id).map (·.quantity)),
            qty_returned := sumQ ((w.return_lines.filter fun rl =>
              rl.item_id = line.item_id).map (·.quantity)) } }

/-- Loop of `cancel` over the ids of the reservations that were ACTIVE
when the loop started, releasing each in full. -/
def releaseAll : World → List Nat → Except Err World
  | w, [] => .ok w
  | w, rid :: rest =>
    match release_reservation w rid none with
    | .error e => .error e
    | .ok (w1, _) => releaseAll w1 rest

/-- Embedding of `WorkOrderWorkflowService.cancel`
(workorder_workflow_service.py lines 93-142).  An already-CANCELLED work
order is returned unchanged (early return, no error); otherwise only
DRAFT or APPROVED may cancel, any recorded consumption forbids it, every
ACTIVE reservation is released in full, and the status flips to
CANCELLED. -/
def cancel (w : World) : Except Err World :=
  if w.wo_status = .CANCELLED then .ok w
  else if ¬(w.wo_status = .DRAFT ∨ w.wo_status = .APPROVED) then
    .error .cancelBadStatus
  else if 0 < w.issue_lines.length then .error .cancelHasConsumption
  else
    match releaseAll w ((w.reservations.filter fun r =>
        r.status = .ACTIVE).map (·.id)) with
    | .error e => .error e
    | .ok w1 => .ok { w1 with wo_status := .CANCELLED }

/-- Severity constants mirror the frozen `Severity` dataclass in
inventory/services/notifications.py: MEDIUM = 1, HIGH = 2, CRITICAL = 3. -/
def Severity.MEDIUM : Nat := 1

/-- Severity HIGH constant of notifications.py. -/
def Severity.HIGH : Nat := 2

/-- Severity CRITICAL constant of notifications.py. -/
def Severity.CRITICAL : Nat := 3

/-- Embedding of `InventoryNotifier.compute_severity`
(notifications.py lines 47-72): None inputs coalesce to 0; no alert when
on_hand > min_stock; else CRITICAL when available ≤ 0, HIGH when
reserved > 0, else MEDIUM. -/
def compute_severity (on_hand reserved min_stock : Option Int) : Option Nat :=
  let oh := on_hand.getD 0
  let r := reserved.getD 0
  let ms := min_stock.getD 0
  if oh > ms then none
  else
    let available := oh - r
    if available ≤ 0 then some Severity.CRITICAL
    else if r > 0 then some Severity.HIGH
    else some Severity.MEDIUM

/-- Success test for an embedded transactional operation. -/
def isOkE {α : Type} : Except Err α → Bool
  | .ok _ => true
  | .error _ => false

/-- Committed ledger state of a `transfer` call: `transaction.atomic`
commits the new state on success and rolls back to the caller's state on
any exception. -/
def transferCommit (l : Ledger) (item from_location to_location : Option Nat)
    (quantity : Int) (registered_by : Option Nat) : Ledger :=
  match transfer l item from_location to_location quantity registered_by with
  | .ok (l', _) => l'
  | .error _ => l

/-- SnapValid is the well-formedness of one snapshot row: the field
validator 0 ≤ reserved declared on the model
(`MinValueValidator` in inventory/models.py, spec data model
"reserved (decimal ≥0)") together with the ledger invariant
reserved ≤ on_hand; the two give 0 ≤ on_hand. -/
def SnapValid (s : Snap) : Prop := 0 ≤ s.reserved ∧ s.reserved ≤ s.on_hand

/-- LedgerInv is the global well-formedness of the ledger state: every
snapshot row is valid and every movement row has the positive quantity
its field validator requires (quantity ≥ 0.001 in inventory/models.py). -/
def LedgerInv (l : Ledger) : Prop :=
  (∀ k s, findSnap l.snaps k = some s → SnapValid s) ∧
  (∀ m ∈ l.movements, 0 < m.quantity)

/-- LedgerOp enumerates the committed ledger operations named by the
snapshot invariant: the six stock-service mutations and the four
work-order stock paths. -/
inductive LedgerOp where
  | opRegister (item location actor : Option Nat) (mt : MovementType) (qty : Int)
  | opTransfer (item floc tloc : Option Nat) (qty : Int) (actor : Option Nat)
  | opAdjustDelta (item location actor : Option Nat) (delta : Int) (reason : String)
  | opAdjustSet (item location actor : Option Nat) (v : Option Int) (reason : String)
  | opVoid (movement : Option Nat) (reason : String)
  | opReserve (item location actor : Option Nat) (qty : Int)
  | opRelease (item location actor : Option Nat) (qty : Int)
  | opWoReserve (line_id : Nat) (qty : Int) (location_id : Option Nat)
  | opWoRelease (reservation_id : Nat) (qty : Option Int)
  | opWoConsume (actor : Option Nat) (lines : List ConsumeLine)
  | opWoReturn (actor : Option Nat) (lines : List ReturnLineReq)

/-- Dispatch of one committed ledger operation against the world state;
results other than the state are discarded. -/
def applyOp (w : World) : LedgerOp → Except Err World
  | .opRegister item location actor mt qty =>
    match register_movement w.ledger item location actor mt qty with
    | .error e => .error e
    | .ok (l', _) => .ok { w with ledger := l' }
  | .opTransfer item floc tloc qty actor =>
    match transfer w.ledger item floc tloc qty actor with
    | .error e => .error e
    | .ok (l', _) => .ok { w with ledger := l' }
  | .opAdjustDelta item location actor delta reason =>
    match adjust_delta w.ledger item location actor delta reason with
    | .error e => .error e
    | .ok (l', _) => .ok { w with ledger := l' }
  | .opAdjustSet item location actor v reason =>
    match adjust_set w.ledger item location actor v reason with
    | .error e => .error e
    | .ok (l', _) => .ok { w with ledger := l' }
  | .opVoid movement reason =>
    match void_movement w.ledger movement reason with
    | .error e => .error e
    | .ok (l', _) => .ok { w with ledger := l' }
  | .opReserve item location actor qty =>
    match stock_reserve w.ledger item location actor qty with
    | .error e => .error e
    | .ok (l', _) => .ok { w with ledger := l' }
  | .opRelease item location actor qty =>
    match stock_release w.ledger item location actor qty with
    | .error e => .error e
    | .ok (l', _) => .ok { w with ledger := l' }
  | .opWoReserve line_id qty location_id =>
    match wo_reserve w line_id qty location_id with
    | .error e => .error e
    | .ok (w', _) => .ok w'
  | .opWoRelease reservation_id qty =>
    match release_reservation w reservation_id qty with
    | .error e => .error e
    | .ok (w', _) => .ok w'
  | .opWoConsume actor lines => consume w actor lines
  | .opWoReturn actor lines => return_to_stock w actor lines

/-- Ledger instance for the adjust-delta evaluation: one snapshot of item
1 at location 1 with on_hand 10.000 and nothing reserved. -/
def L6 : Ledger := ⟨[((1, 1), ⟨10000, 0⟩)], [], 0⟩

/-- Ledger instance with no rows at all. -/
def L0 : Ledger := ⟨[], [], 0⟩

/-- Snapshot value a ledger operation observes at a key: the stored row,
or the lazily created default row on_hand = 0, reserved = 0. -/
def snapAt (l : Ledger) (k : Nat × Nat) : Snap :=
  (findSnap l.snaps k).getD ⟨0, 0⟩

/-- Ledger instance for the void witness: an IN movement of 5.000 for
item 1 at location 1 and the matching snapshot. -/
def L3 : Ledger :=
  ⟨[((1, 1), ⟨5000, 0⟩)], [⟨0, 1, some 1, .IN_, 5000, false, none⟩], 5⟩

/-- Movement row the void witness targets. -/
def M3 : Movement := ⟨0, 1, some 1, .IN_, 5000, false, none⟩

/-- World instance with one work-order line for item 1 (qty_required
5.000) in DRAFT and an empty stock ledger: no snapshot exists for any
(item, location) pair. -/
def W9 : World := ⟨⟨[], [], 0⟩, .DRAFT, [⟨1, 1, 5000, 0, 0, 0⟩], [], 0, [], []⟩

/-- World instance for the cache-recompute witness: one line for item 7
whose caches are stale (qty_reserved 0.999), one ACTIVE and one RELEASED
reservation, one issue line of 1.500, one return line of 0.500. -/
def W8 : World :=
  ⟨⟨[], [], 0⟩, .IN_PROGRESS,
   [⟨1, 7, 5000, 999, 0, 0⟩],
   [⟨1, 1, 7, 4, 3000, .ACTIVE⟩, ⟨2, 1, 7, 4, 2000, .RELEASED⟩],
   3, [⟨7, 4, 1500, none, 0⟩], [⟨7, 4, 500, 0⟩]⟩

/-- First line of `W8` after one cache recompute. -/
def L8 : WOLine := ((recompute_line_caches W8).lines).headD ⟨0, 0, 0, 0, 0, 0⟩

/-- World instance for the reserved-consumption witness: 5.000 on hand,
all 5.000 reserved by the single ACTIVE reservation of line 1, so
available is 0. -/
def W10 : World :=
  ⟨⟨[((1, 1), ⟨5000, 5000⟩)], [], 0⟩, .IN_PROGRESS,
   [⟨1, 1, 5000, 5000, 0, 0⟩],
   [⟨1, 1, 1, 1, 5000, .ACTIVE⟩],
   2, [], []⟩

/-- Extraction of the committed world of a successful operation, with a
fallback for the error case. -/
def okOr (x : Except Err World) (d : World) : World :=
  match x with
  | .ok w => w
  | .error _ => d

/-- World instance for the cancel witness: a DRAFT work order with one
ACTIVE reservation of 3.000 against a snapshot of 5.000 on hand. -/
def W5 : World :=
  ⟨⟨[((1, 1), ⟨5000, 3000⟩)], [], 0⟩, .DRAFT,
   [⟨1, 1, 5000, 3000, 0, 0⟩],
   [⟨1, 1, 1, 1, 3000, .ACTIVE⟩],
   2, [], []⟩

/-- Committed world after cancelling `W5`. -/
def W5res : World := okOr (cancel W5) W5

/-- World instance whose work order is already CANCELLED. -/
def W5cancelled : World :=
  ⟨⟨[], [], 0⟩, .CANCELLED, [], [], 0, [], []⟩

/-- Committed world after registering an IN of 2.000 on `W10`. -/
def C1res : World :=
  okOr (applyOp W10 (.opRegister (some 1) (some 1) (some 7) .IN_ 2000)) W10

/-! Theorems.  Everything below is proved about the embedded operations
above. -/

theorem findSnap_put (l : List ((Nat × Nat) × Snap)) (k k0 : Nat × Nat)
    (s : Snap) :
    findSnap (putSnap l k s) k0 = if k = k0 then some s else findSnap l k0 := by
  simp [putSnap, findSnap]

theorem getOrCreate_fst (l : List ((Nat × Nat) × Snap)) (k : Nat × Nat) :
    (getOrCreateSnap l k).1 = (findSnap l k).getD ⟨0, 0⟩ := by
  unfold getOrCreateSnap
  cases h : findSnap l k <;> simp [h]

theorem invSnaps_put {sn : List ((Nat × Nat) × Snap)}
    (hinv : ∀ k s, findSnap sn k = some s → SnapValid s)
    (k0 : Nat × Nat) {s0 : Snap} (hs0 : SnapValid s0) :
    ∀ k s, findSnap (putSnap sn k0 s0) k = some s → SnapValid s := by
  intro k s h
  rw [findSnap_put] at h
  split at h
  · cases h; exact hs0
  · exact hinv k s h

theorem snapValid_zero : SnapValid ⟨0, 0⟩ := by
  constructor <;> simp

theorem invSnaps_getOrCreate_fst {sn : List ((Nat × Nat) × Snap)}
    (hinv : ∀ k s, findSnap sn k = some s → SnapValid s) (k : Nat × Nat) :
    SnapValid (getOrCreateSnap sn k).1 := by
  unfold getOrCreateSnap
  cases h : findSnap sn k with
  | none => exact snapValid_zero
  | some s => exact hinv k s h

theorem invSnaps_getOrCreate_snd {sn : List ((Nat × Nat) × Snap)}
    (hinv : ∀ k s, findSnap sn k = some s → SnapValid s) (k : Nat × Nat) :
    ∀ k0 s, findSnap (getOrCreateSnap sn k).2 k0 = some s → SnapValid s := by
  unfold getOrCreateSnap
  cases h : findSnap sn k with
  | none => exact invSnaps_put hinv k snapValid_zero
  | some s => exact hinv

/-- C7: computeSeverity returns None exactly when on_hand > min_stock;
otherwise it returns CRITICAL when on_hand - reserved <= 0, else HIGH
when reserved > 0, else MEDIUM; in particular at the boundary
on_hand = min_stock = 10 with reserved = 0 it returns MEDIUM, not None. -/
theorem computeSeverity_spec (oh r ms : Int) :
    (compute_severity (some oh) (some r) (some ms) = none ↔ ms < oh)
    ∧ (oh ≤ ms →
        compute_severity (some oh) (some r) (some ms) =
          some (if oh - r ≤ 0 then Severity.CRITICAL
                else if 0 < r then Severity.HIGH
                else Severity.MEDIUM))
    ∧ compute_severity (some 10) (some 0) (some 10) = some Severity.MEDIUM := by
  refine ⟨?_, ?_, ?_⟩
  · unfold compute_severity
    simp only [Option.getD_some]
    split_ifs <;> simp <;> omega
  · intro h
    unfold compute_severity
    simp only [Option.getD_some]
    rw [if_neg (by omega)]
    split_ifs <;> rfl
  · decide

/-- Witness for C7 at on_hand 5, reserved 2, min_stock 10. -/
theorem computeSeverity_spec_witness :
    (5 : Int) ≤ 10 ∧
    compute_severity (some 5) (some 2) (some 10) =
      some (if (5 : Int) - 2 ≤ 0 then Severity.CRITICAL
            else if (0 : Int) < 2 then Severity.HIGH
            else Severity.MEDIUM) :=
  ⟨by norm_num, (computeSeverity_spec 5 2 10).2.1 (by norm_num)⟩

/-- C6: the claim says adjustDelta with a valid non-zero delta and
non-empty reason returns new_on_hand = on_hand + delta; the code instead
constructs `StockResult` without the required `movement_id` field, so
after every check passes it raises `TypeError` and the transaction rolls
back: at on_hand 10.000, delta +5.000, reason "conteo fisico" the call
fails instead of returning 15.000. -/
theorem adjustDelta_always_typeError :
    adjust_delta L6 (some 1) (some 1) (some 7) 5000 "conteo fisico" =
      .error .typeErrorMissingField := by
  rfl

/-- C2: registerMovement with type IN always succeeds (valid item,
location, actor, qty > 0) and returns new_on_hand = on_hand + qty; with
type OUT it fails with the insufficient-stock error exactly when
qty > on_hand - reserved and otherwise returns
new_on_hand = on_hand - qty; a request with type ADJ is always
rejected. -/
theorem registerMovement_spec (l : Ledger) (i loc act : Nat) (qty : Int)
    (hq : 0 < qty) :
    (∃ l' r, register_movement l (some i) (some loc) (some act) .IN_ qty =
        .ok (l', r) ∧
        r.new_on_hand = (getOrCreateSnap l.snaps (i, loc)).1.on_hand + qty)
    ∧ ((getOrCreateSnap l.snaps (i, loc)).1.on_hand -
          (getOrCreateSnap l.snaps (i, loc)).1.reserved < qty →
        register_movement l (some i) (some loc) (some act) .OUT qty =
          .error (.insufficientStock
            ((getOrCreateSnap l.snaps (i, loc)).1.on_hand -
              (getOrCreateSnap l.snaps (i, loc)).1.reserved)
            (getOrCreateSnap l.snaps (i, loc)).1.reserved))
    ∧ (qty ≤ (getOrCreateSnap l.snaps (i, loc)).1.on_hand -
          (getOrCreateSnap l.snaps (i, loc)).1.reserved →
        ∃ l' r, register_movement l (some i) (some loc) (some act) .OUT qty =
          .ok (l', r) ∧
          r.new_on_hand = (getOrCreateSnap l.snaps (i, loc)).1.on_hand - qty)
    ∧ (∀ (item location actor : Option Nat) (q : Int),
        isOkE (register_movement l item location actor .ADJ q) = false) := by
  rcases hE : getOrCreateSnap l.snaps (i, loc) with ⟨s0, sn1⟩
  refine ⟨?_, ?_, ?_, ?_⟩
  · simp only [register_movement, if_neg (not_le.mpr hq), hE]
    exact ⟨_, _, rfl, rfl⟩
  · intro h
    simp only [hE] at h ⊢
    simp only [register_movement, if_neg (not_le.mpr hq), hE]
    rw [if_pos (by omega)]
  · intro h
    simp only [hE] at h ⊢
    simp only [register_movement, if_neg (not_le.mpr hq), hE]
    rw [if_neg (by omega)]
    exact ⟨_, _, rfl, rfl⟩
  · intro item location actor q
    rcases item with _ | i0
    · rfl
    rcases location with _ | lo0
    · rfl
    rcases actor with _ | a0
    · rfl
    by_cases hq0 : q ≤ 0
    · simp only [register_movement, if_pos hq0]; rfl
    · rcases hE0 : getOrCreateSnap l.snaps (i0, lo0) with ⟨t0, tn1⟩
      simp only [register_movement, if_neg hq0, hE0]
      rfl

/-- Witness for C2 on the empty ledger: an IN of 5.000 at a fresh
(item, location) pair succeeds with new_on_hand 5.000. -/
theorem registerMovement_spec_witness :
    (0 : Int) < 5000 ∧
    (∃ l' r, register_movement L0 (some 1) (some 2) (some 3) .IN_ 5000 =
        .ok (l', r) ∧
        r.new_on_hand = (getOrCreateSnap L0.snaps (1, 2)).1.on_hand + 5000) :=
  ⟨by norm_num, (registerMovement_spec L0 1 2 3 5000 (by norm_num)).1⟩

theorem findSnap_getOrCreate_snd_ne (sn : List ((Nat × Nat) × Snap))
    (k k0 : Nat × Nat) (hk : k ≠ k0) :
    findSnap (getOrCreateSnap sn k).2 k0 = findSnap sn k0 := by
  unfold getOrCreateSnap
  cases h : findSnap sn k
  · simp [findSnap_put, hk]
  · simp

theorem transfer_reduce (l : Ledger) (i f t act : Nat) (qty : Int)
    (hft : f ≠ t) (hq : 0 < qty) :
    transfer l (some i) (some f) (some t) qty (some act) =
      (if qty > (snapAt l (i, f)).on_hand - (snapAt l (i, f)).reserved then
         .error (.insufficientAtSource
           ((snapAt l (i, f)).on_hand - (snapAt l (i, f)).reserved)
           (snapAt l (i, f)).reserved)
       else
         .ok ({ snaps := putSnap (putSnap
                  (getOrCreateSnap (getOrCreateSnap l.snaps
                    (i, min f t)).2 (i, max f t)).2
                  (i, f) ⟨(snapAt l (i, f)).on_hand - qty,
                          (snapAt l (i, f)).reserved⟩)
                  (i, t) ⟨(snapAt l (i, t)).on_hand + qty,
                          (snapAt l (i, t)).reserved⟩,
                movements := l.movements ++
                  [⟨l.next_id, i, some f, .OUT, qty, false, none⟩,
                   ⟨l.next_id + 1, i, some t, .IN_, qty, false, none⟩],
                next_id := l.next_id + 2 },
              ⟨i, f, t, qty, (snapAt l (i, f)).on_hand - qty,
               (snapAt l (i, t)).on_hand + qty,
               l.next_id, l.next_id + 1⟩)) := by
  simp only [snapAt]
  have hq' : ¬ qty ≤ 0 := not_le.mpr hq
  have hkey : ((i, f) : Nat × Nat) ≠ (i, t) := by
    simp only [ne_eq, Prod.mk.injEq, not_and]
    intro _ h; exact hft h
  have hkey' : ((i, t) : Nat × Nat) ≠ (i, f) := by
    simp only [ne_eq, Prod.mk.injEq, not_and]
    intro _ h; exact hft h.symm
  rcases Nat.lt_or_ge f t with hlt | hge
  · have hmin : min f t = f := min_eq_left hlt.le
    have hmax : max f t = t := max_eq_right hlt.le
    rcases hA : getOrCreateSnap l.snaps (i, f) with ⟨sa, sn1⟩
    rcases hB : getOrCreateSnap sn1 (i, t) with ⟨sb, sn2⟩
    have hsa : sa = (findSnap l.snaps (i, f)).getD ⟨0, 0⟩ := by
      have h1 := getOrCreate_fst l.snaps (i, f); rw [hA] at h1; exact h1
    have hsn1 : findSnap sn1 (i, t) = findSnap l.snaps (i, t) := by
      have h2 : sn1 = (getOrCreateSnap l.snaps (i, f)).2 := by rw [hA]
      rw [h2]; exact findSnap_getOrCreate_snd_ne _ _ _ hkey
    have hsb : sb = (findSnap l.snaps (i, t)).getD ⟨0, 0⟩ := by
      have h1 : sb = (findSnap sn1 (i, t)).getD ⟨0, 0⟩ := by
        have h2 := getOrCreate_fst sn1 (i, t); rw [hB] at h2; exact h2
      rw [h1, hsn1]
    simp only [transfer, if_neg hft, if_neg hq', hmin, hmax, hA, hB,
      if_pos rfl]
    rw [hsa, hsb]
    simp
  · have hlt : t < f := lt_of_le_of_ne hge (fun h => hft h.symm)
    have hmin : min f t = t := min_eq_right hlt.le
    have hmax : max f t = f := max_eq_left hlt.le
    rcases hA : getOrCreateSnap l.snaps (i, t) with ⟨sa, sn1⟩
    rcases hB : getOrCreateSnap sn1 (i, f) with ⟨sb, sn2⟩
    have hsa : sa = (findSnap l.snaps (i, t)).getD ⟨0, 0⟩ := by
      have h1 := getOrCreate_fst l.snaps (i, t); rw [hA] at h1; exact h1
    have hsn1 : findSnap sn1 (i, f) = findSnap l.snaps (i, f) := by
      have h2 : sn1 = (getOrCreateSnap l.snaps (i, t)).2 := by rw [hA]
      rw [h2]; exact findSnap_getOrCreate_snd_ne _ _ _ hkey'
    have hsb : sb = (findSnap l.snaps (i, f)).getD ⟨0, 0⟩ := by
      have h1 : sb = (findSnap sn1 (i, f)).getD ⟨0, 0⟩ := by
        have h2 := getOrCreate_fst sn1 (i, f); rw [hB] at h2; exact h2
      rw [h1, hsn1]
    have htf : ¬ (t = f) := fun h => hft h.symm
    simp only [transfer, if_neg hft, if_neg hq', hmin, hmax, hA, hB,
      if_neg htf]
    rw [hsa, hsb]

/-- C4: transfer is atomic: whenever it fails (same from/to location,
invalid qty, or qty > on_hand - reserved at the source) the committed
ledger is exactly the input ledger — zero new movements, both snapshots
unchanged; on success it returns from_new_on_hand = source on_hand - qty
and to_new_on_hand = destination on_hand + qty with exactly one OUT and
one IN movement appended. -/
theorem transfer_spec (l : Ledger) (i f t act : Nat) (qty : Int) :
    ((f = t ∨ qty ≤ 0 ∨
        (snapAt l (i, f)).on_hand - (snapAt l (i, f)).reserved < qty) →
      (∃ e, transfer l (some i) (some f) (some t) qty (some act) =
        .error e) ∧
      transferCommit l (some i) (some f) (some t) qty (some act) = l)
    ∧ (f ≠ t → 0 < qty →
        qty ≤ (snapAt l (i, f)).on_hand - (snapAt l (i, f)).reserved →
        ∃ l' r, transfer l (some i) (some f) (some t) qty (some act) =
          .ok (l', r) ∧
          r.from_new_on_hand = (snapAt l (i, f)).on_hand - qty ∧
          r.to_new_on_hand = (snapAt l (i, t)).on_hand + qty ∧
          (∃ om im, l'.movements = l.movements ++ [om, im] ∧
            om.movement_type = .OUT ∧ om.quantity = qty ∧
            om.location_id = some f ∧ im.movement_type = .IN_ ∧
            im.quantity = qty ∧ im.location_id = some t) ∧
          findSnap l'.snaps (i, f) =
            some ⟨(snapAt l (i, f)).on_hand - qty,
                  (snapAt l (i, f)).reserved⟩ ∧
          findSnap l'.snaps (i, t) =
            some ⟨(snapAt l (i, t)).on_hand + qty,
                  (snapAt l (i, t)).reserved⟩) := by
  constructor
  · intro hfail
    by_cases hft : f = t
    · subst hft
      exact ⟨⟨.sameLocation, by simp [transfer]⟩,
        by simp [transferCommit, transfer]⟩
    by_cases hq : qty ≤ 0
    · exact ⟨⟨.nonPositiveQty, by simp [transfer, hft, hq]⟩,
        by simp [transferCommit, transfer, hft, hq]⟩
    · have hq0 : 0 < qty := by omega
      have havail :
          (snapAt l (i, f)).on_hand - (snapAt l (i, f)).reserved < qty := by
        rcases hfail with h | h | h
        · exact absurd h hft
        · exact absurd h hq
        · exact h
      have hred := transfer_reduce l i f t act qty hft hq0
      rw [if_pos havail] at hred
      refine ⟨⟨_, hred⟩, ?_⟩
      unfold transferCommit
      rw [hred]
  · intro hft hq0 havail
    have hkey' : ((i, t) : Nat × Nat) ≠ (i, f) := by
      simp only [ne_eq, Prod.mk.injEq, not_and]
      intro _ h; exact hft h.symm
    have hred := transfer_reduce l i f t act qty hft hq0
    rw [if_neg (not_lt.mpr havail)] at hred
    refine ⟨_, _, hred, rfl, rfl,
      ⟨_, _, rfl, rfl, rfl, rfl, rfl, rfl, rfl⟩, ?_, ?_⟩
    · rw [findSnap_put, if_neg hkey', findSnap_put, if_pos rfl]
    · rw [findSnap_put, if_pos rfl]

/-- Witness for C4 on a ledger holding 8.000 units of item 1 at location
1: transferring 3.000 to location 2 succeeds, and transferring to the
same location fails leaving the ledger untouched. -/
theorem transfer_spec_witness :
    ((1 : Nat) = 1 ∨ (3000 : Int) ≤ 0 ∨
        (snapAt ⟨[((1, 1), ⟨8000, 2000⟩)], [], 0⟩ (1, 1)).on_hand -
          (snapAt ⟨[((1, 1), ⟨8000, 2000⟩)], [], 0⟩ (1, 1)).reserved < 3000) ∧
    transferCommit ⟨[((1, 1), ⟨8000, 2000⟩)], [], 0⟩ (some 1) (some 1)
        (some 1) 3000 (some 7) = ⟨[((1, 1), ⟨8000, 2000⟩)], [], 0⟩ ∧
    (∃ l' r, transfer ⟨[((1, 1), ⟨8000, 2000⟩)], [], 0⟩ (some 1) (some 1)
        (some 2) 3000 (some 7) = .ok (l', r) ∧
      r.from_new_on_hand =
        (snapAt ⟨[((1, 1), ⟨8000, 2000⟩)], [], 0⟩ (1, 1)).on_hand - 3000 ∧
      r.to_new_on_hand =
        (snapAt ⟨[((1, 1), ⟨8000, 2000⟩)], [], 0⟩ (1, 2)).on_hand + 3000 ∧
      (∃ om im, l'.movements = Ledger.movements
          ⟨[((1, 1), ⟨8000, 2000⟩)], [], 0⟩ ++ [om, im] ∧
        om.movement_type = .OUT ∧ om.quantity = 3000 ∧
        om.location_id = some 1 ∧ im.movement_type = .IN_ ∧
        im.quantity = 3000 ∧ im.location_id = some 2) ∧
      findSnap l'.snaps (1, 1) =
        some ⟨(snapAt ⟨[((1, 1), ⟨8000, 2000⟩)], [], 0⟩ (1, 1)).on_hand - 3000,
              (snapAt ⟨[((1, 1), ⟨8000, 2000⟩)], [], 0⟩ (1, 1)).reserved⟩ ∧
      findSnap l'.snaps (1, 2) =
        some ⟨(snapAt ⟨[((1, 1), ⟨8000, 2000⟩)], [], 0⟩ (1, 2)).on_hand + 3000,
              (snapAt ⟨[((1, 1), ⟨8000, 2000⟩)], [], 0⟩ (1, 2)).reserved⟩) :=
  ⟨Or.inl rfl,
   ((transfer_spec ⟨[((1, 1), ⟨8000, 2000⟩)], [], 0⟩ 1 1 1 7 3000).1
     (Or.inl rfl)).2,
   (transfer_spec ⟨[((1, 1), ⟨8000, 2000⟩)], [], 0⟩ 1 1 2 7 3000).2
     (by decide) (by norm_num) (by decide)⟩

theorem findMovement_mem (ls : List Movement) (i : Nat) (m : Movement)
    (h : findMovement ls i = some m) : m ∈ ls ∧ m.id = i := by
  induction ls with
  | nil => cases h
  | cons a rest ih =>
    unfold findMovement at h
    by_cases ha : a.id = i
    · rw [if_pos ha] at h
      cases h
      exact ⟨List.mem_cons_self _ _, ha⟩
    · rw [if_neg ha] at h
      obtain ⟨h1, h2⟩ := ih h
      exact ⟨List.mem_cons_of_mem _ h1, h2⟩

/-- C3: voidMovement fails when the target is already void or already
has a reversal; a void of an IN fails when quantity > available; a void
of an ADJ always fails; on success an IN-void returns
new_on_hand = on_hand - quantity and an OUT-void
new_on_hand = on_hand + quantity, creating a reversal movement of the
inverse type with is_void = true and void_of = original, while the
original is flagged is_void = true. -/
theorem voidMovement_spec (l : Ledger) (mid : Nat) (m : Movement)
    (reason : String) (hfind : findMovement l.movements mid = some m) :
    (m.is_void = true →
      void_movement l (some mid) reason = .error .alreadyVoid)
    ∧ (m.is_void = false → hasReversal l.movements mid = true →
        void_movement l (some mid) reason = .error .alreadyHasReversal)
    ∧ (m.movement_type = .ADJ →
        isOkE (void_movement l (some mid) reason) = false)
    ∧ (∀ loc, m.is_void = false → hasReversal l.movements mid = false →
        blank reason = false → m.location_id = some loc →
        m.movement_type = .IN_ →
        ((snapAt l (m.item_id, loc)).on_hand -
            (snapAt l (m.item_id, loc)).reserved < m.quantity →
          void_movement l (some mid) reason =
            .error (.voidInsufficient
              ((snapAt l (m.item_id, loc)).on_hand -
                (snapAt l (m.item_id, loc)).reserved)
              (snapAt l (m.item_id, loc)).reserved))
        ∧ (m.quantity ≤ (snapAt l (m.item_id, loc)).on_hand -
              (snapAt l (m.item_id, loc)).reserved →
          ∃ l' res, void_movement l (some mid) reason = .ok (l', res) ∧
            res.new_on_hand =
              (snapAt l (m.item_id, loc)).on_hand - m.quantity ∧
            (∃ vm, vm ∈ l'.movements ∧ vm.void_of = some mid ∧
              vm.is_void = true ∧ vm.movement_type = .OUT ∧
              vm.quantity = m.quantity) ∧
            { m with is_void := true } ∈ l'.movements))
    ∧ (∀ loc, m.is_void = false → hasReversal l.movements mid = false →
        blank reason = false → m.location_id = some loc →
        m.movement_type = .OUT →
        ∃ l' res, void_movement l (some mid) reason = .ok (l', res) ∧
          res.new_on_hand =
            (snapAt l (m.item_id, loc)).on_hand + m.quantity ∧
          (∃ vm, vm ∈ l'.movements ∧ vm.void_of = some mid ∧
            vm.is_void = true ∧ vm.movement_type = .IN_ ∧
            vm.quantity = m.quantity) ∧
          { m with is_void := true } ∈ l'.movements) := by
  obtain ⟨hmem, hid⟩ := findMovement_mem l.movements mid m hfind
  have hmark : ({ m with is_void := true } : Movement) ∈
      l.movements.map (fun r =>
        if r.id = mid then { r with is_void := true } else r) := by
    have h1 := List.mem_map_of_mem
      (fun r => if r.id = mid then { r with is_void := true } else r) hmem
    simpa [hid] using h1
  refine ⟨?_, ?_, ?_, ?_, ?_⟩
  · intro hv
    simp [void_movement, hfind, hv]
  · intro hv hrev
    simp [void_movement, hfind, hv, hrev]
  · intro hty
    by_cases hv : m.is_void
    · simp [void_movement, hfind, hv, isOkE]
    by_cases hrev : hasReversal l.movements mid
    · simp [void_movement, hfind, hv, hrev, isOkE]
    by_cases hblank : blank reason
    · simp [void_movement, hfind, hv, hrev, hblank, isOkE]
    rcases hloc : m.location_id with _ | loc
    · simp [void_movement, hfind, hv, hrev, hblank, hloc, isOkE]
    · rcases hG : getOrCreateSnap l.snaps (m.item_id, loc) with ⟨s0, sn1⟩
      simp [void_movement, hfind, hv, hrev, hblank, hloc, hty, hG, isOkE]
  · intro loc hv hrev hblank hloc hty
    rcases hG : getOrCreateSnap l.snaps (m.item_id, loc) with ⟨s0, sn1⟩
    have hs0 : s0 = snapAt l (m.item_id, loc) := by
      have h1 := getOrCreate_fst l.snaps (m.item_id, loc)
      rw [hG] at h1
      exact h1
    constructor
    · intro hlow
      rw [← hs0] at hlow ⊢
      simp only [void_movement, hfind, hv, hrev, hblank, hloc, hty, hG]
      simp only [Bool.false_eq_true, if_false]
      rw [if_pos hlow]
    · intro hok
      rw [← hs0] at hok ⊢
      simp only [void_movement, hfind, hv, hrev, hblank, hloc, hty, hG]
      simp only [Bool.false_eq_true, if_false]
      rw [if_neg (not_lt.mpr hok)]
      have hm2 := hmark
      simp only [hloc, hty] at hm2
      exact ⟨_, _, rfl, rfl,
        ⟨_, List.mem_append_right _ (List.mem_singleton.mpr rfl),
         rfl, rfl, rfl, rfl⟩,
        List.mem_append_left _ hm2⟩
  · intro loc hv hrev hblank hloc hty
    rcases hG : getOrCreateSnap l.snaps (m.item_id, loc) with ⟨s0, sn1⟩
    have hs0 : s0 = snapAt l (m.item_id, loc) := by
      have h1 := getOrCreate_fst l.snaps (m.item_id, loc)
      rw [hG] at h1
      exact h1
    rw [← hs0]
    simp only [void_movement, hfind, hv, hrev, hblank, hloc, hty, hG]
    simp only [Bool.false_eq_true, if_false]
    have hm2 := hmark
    simp only [hloc, hty] at hm2
    exact ⟨_, _, rfl, rfl,
      ⟨_, List.mem_append_right _ (List.mem_singleton.mpr rfl),
       rfl, rfl, rfl, rfl⟩,
      List.mem_append_left _ hm2⟩

/-- Witness for C3: voiding the IN movement of 5.000 in `L3` succeeds,
returning new_on_hand 0 and recording the reversal. -/
theorem voidMovement_spec_witness :
    findMovement L3.movements 0 = some M3 ∧
    M3.is_void = false ∧ hasReversal L3.movements 0 = false ∧
    blank "rotura" = false ∧ M3.location_id = some 1 ∧
    M3.movement_type = .IN_ ∧
    M3.quantity ≤ (snapAt L3 (M3.item_id, 1)).on_hand -
      (snapAt L3 (M3.item_id, 1)).reserved ∧
    (∃ l' res, void_movement L3 (some 0) "rotura" = .ok (l', res) ∧
      res.new_on_hand = (snapAt L3 (M3.item_id, 1)).on_hand - M3.quantity ∧
      (∃ vm, vm ∈ l'.movements ∧ vm.void_of = some 0 ∧
        vm.is_void = true ∧ vm.movement_type = .OUT ∧
        vm.quantity = M3.quantity) ∧
      { M3 with is_void := true } ∈ l'.movements) :=
  ⟨rfl, rfl, rfl, rfl, rfl, rfl, by decide,
    ((voidMovement_spec L3 0 M3 "rotura" rfl).2.2.2.1 1 rfl rfl rfl rfl
      rfl).2 (by decide)⟩

/-- C9 counterexample: the claim says any first movement or reservation
operation touching a pair with no StockSnapshot creates the snapshot
lazily rather than failing, for the Work Order Stock Service reserve
path too; instead `WorkOrderStockService.reserve` fetches the snapshot
with a plain `get` and fails with `DoesNotExist` on the fresh pair
(item 1, location 4) of `W9`. -/
theorem woReserve_missingSnapshot :
    wo_reserve W9 1 1000 (some 4) = .error .snapshotDoesNotExist := by
  rfl

/-- C9 amended: the Stock Ledger operations on one (item, location) pair
(register_movement, adjust_delta, adjust_set, reserve, release) treat a
missing snapshot exactly as a present snapshot with on_hand = 0 and
reserved = 0, a first IN actually creates the row, but the Work Order
Stock Service reserve operation fails with `DoesNotExist` when the
snapshot is missing. -/
theorem lazySnapshotCreation_spec :
    (∀ (l : Ledger) (i loc act : Nat) (mt : MovementType) (q : Int),
      findSnap l.snaps (i, loc) = none →
      register_movement { l with snaps := putSnap l.snaps (i, loc) ⟨0, 0⟩ }
          (some i) (some loc) (some act) mt q =
        register_movement l (some i) (some loc) (some act) mt q)
    ∧ (∀ (l : Ledger) (i loc act : Nat) (q : Int),
        findSnap l.snaps (i, loc) = none →
        stock_reserve { l with snaps := putSnap l.snaps (i, loc) ⟨0, 0⟩ }
            (some i) (some loc) (some act) q =
          stock_reserve l (some i) (some loc) (some act) q)
    ∧ (∀ (l : Ledger) (i loc act : Nat) (q : Int),
        findSnap l.snaps (i, loc) = none →
        stock_release { l with snaps := putSnap l.snaps (i, loc) ⟨0, 0⟩ }
            (some i) (some loc) (some act) q =
          stock_release l (some i) (some loc) (some act) q)
    ∧ (∀ (l : Ledger) (i loc act : Nat) (d : Int) (reason : String),
        findSnap l.snaps (i, loc) = none →
        adjust_delta { l with snaps := putSnap l.snaps (i, loc) ⟨0, 0⟩ }
            (some i) (some loc) (some act) d reason =
          adjust_delta l (some i) (some loc) (some act) d reason)
    ∧ (∀ (l : Ledger) (i loc act : Nat) (v : Option Int) (reason : String),
        findSnap l.snaps (i, loc) = none →
        adjust_set { l with snaps := putSnap l.snaps (i, loc) ⟨0, 0⟩ }
            (some i) (some loc) (some act) v reason =
          adjust_set l (some i) (some loc) (some act) v reason)
    ∧ (∀ (l : Ledger) (i loc act : Nat) (q : Int),
        findSnap l.snaps (i, loc) = none → 0 < q →
        ∃ l' r, register_movement l (some i) (some loc) (some act) .IN_ q =
            .ok (l', r) ∧
          findSnap l'.snaps (i, loc) = some ⟨q, 0⟩)
    ∧ (∀ (w : World) (line_id : Nat) (q : Int) (loc : Nat) (line : WOLine),
        0 < q → findLine w.lines line_id = some line →
        (w.wo_status = .DRAFT ∨ w.wo_status = .APPROVED ∨
          w.wo_status = .IN_PROGRESS) →
        findSnap w.ledger.snaps (line.item_id, loc) = none →
        wo_reserve w line_id q (some loc) = .error .snapshotDoesNotExist) := by
  have key : ∀ (sn : List ((Nat × Nat) × Snap)) (k : Nat × Nat),
      findSnap sn k = none →
      getOrCreateSnap (putSnap sn k ⟨0, 0⟩) k = (⟨0, 0⟩, putSnap sn k ⟨0, 0⟩) ∧
      getOrCreateSnap sn k = (⟨0, 0⟩, putSnap sn k ⟨0, 0⟩) := by
    intro sn k habs
    constructor
    · unfold getOrCreateSnap
      rw [findSnap_put, if_pos rfl]
    · unfold getOrCreateSnap
      rw [habs]
  refine ⟨?_, ?_, ?_, ?_, ?_, ?_, ?_⟩
  · intro l i loc act mt q habs
    obtain ⟨h1, h2⟩ := key l.snaps (i, loc) habs
    simp only [register_movement, h1, h2]
  · intro l i loc act q habs
    obtain ⟨h1, h2⟩ := key l.snaps (i, loc) habs
    simp only [stock_reserve, h1, h2]
  · intro l i loc act q habs
    obtain ⟨h1, h2⟩ := key l.snaps (i, loc) habs
    simp only [stock_release, h1, h2]
  · intro l i loc act d reason habs
    obtain ⟨h1, h2⟩ := key l.snaps (i, loc) habs
    simp only [adjust_delta, h1, h2]
  · intro l i loc act v reason habs
    obtain ⟨h1, h2⟩ := key l.snaps (i, loc) habs
    simp only [adjust_set, h1, h2]
  · intro l i loc act q habs hq
    obtain ⟨_, h2⟩ := key l.snaps (i, loc) habs
    simp only [register_movement, if_neg (not_le.mpr hq), h2]
    exact ⟨_, _, rfl, by rw [findSnap_put, if_pos rfl]; norm_num⟩
  · intro w line_id q loc line hq hline hstat habs
    simp only [wo_reserve, if_neg (not_le.mpr hq), hline, if_pos hstat, habs]

/-- Witness for C9's amended statement: clause 6 creates the snapshot on
the empty ledger, clause 7 rejects the work-order reserve on `W9`. -/
theorem lazySnapshotCreation_spec_witness :
    (findSnap L0.snaps (1, 2) = none ∧ (0 : Int) < 5000 ∧
      ∃ l' r, register_movement L0 (some 1) (some 2) (some 3) .IN_ 5000 =
          .ok (l', r) ∧
        findSnap l'.snaps (1, 2) = some ⟨5000, 0⟩) ∧
    wo_reserve W9 1 1000 (some 4) = .error .snapshotDoesNotExist :=
  ⟨⟨rfl, by norm_num,
    lazySnapshotCreation_spec.2.2.2.2.2.1 L0 1 2 3 5000 rfl (by norm_num)⟩,
   lazySnapshotCreation_spec.2.2.2.2.2.2 W9 1 1000 4 ⟨1, 1, 5000, 0, 0, 0⟩
     (by norm_num) rfl (Or.inl rfl) rfl⟩

/-- C8: recomputeLineCaches is idempotent — a second call leaves every
line's qty_reserved, qty_consumed and qty_returned unchanged — and after
any single call each cached field equals the corresponding sum over the
raw child records (ACTIVE reservation quantities of the line, issue-line
quantities and return-line quantities for the line's item). -/
theorem recomputeLineCaches_spec (w : World) :
    recompute_line_caches (recompute_line_caches w) =
      recompute_line_caches w
    ∧ ∀ ln ∈ (recompute_line_caches w).lines,
        ln.qty_reserved = sumQ ((w.reservations.filter fun r =>
          r.line_id = ln.id ∧ r.status = .ACTIVE).map (·.quantity)) ∧
        ln.qty_consumed = sumQ ((w.issue_lines.filter fun il =>
          il.item_id = ln.item_id).map (·.quantity)) ∧
        ln.qty_returned = sumQ ((w.return_lines.filter fun rl =>
          rl.item_id = ln.item_id).map (·.quantity)) := by
  constructor
  · simp only [recompute_line_caches, List.map_map]
    rfl
  · intro ln hln
    simp only [recompute_line_caches] at hln
    obtain ⟨a, _, rfl⟩ := List.mem_map.mp hln
    exact ⟨rfl, rfl, rfl⟩

/-- Witness for C8 on `W8`: the recompute is idempotent and the line's
caches equal 3.000 reserved, 1.500 consumed and 0.500 returned. -/
theorem recomputeLineCaches_spec_witness :
    recompute_line_caches (recompute_line_caches W8) =
      recompute_line_caches W8 ∧
    L8 ∈ (recompute_line_caches W8).lines ∧
    (L8.qty_reserved = sumQ ((W8.reservations.filter fun r =>
        r.line_id = L8.id ∧ r.status = .ACTIVE).map (·.quantity)) ∧
     L8.qty_consumed = sumQ ((W8.issue_lines.filter fun il =>
        il.item_id = L8.item_id).map (·.quantity)) ∧
     L8.qty_returned = sumQ ((W8.return_lines.filter fun rl =>
        rl.item_id = L8.item_id).map (·.quantity))) :=
  ⟨(recomputeLineCaches_spec W8).1, by decide,
   (recomputeLineCaches_spec W8).2 L8 (by decide)⟩

theorem findLine_some_id (ls : List WOLine) (i : Nat) (m : WOLine)
    (h : findLine ls i = some m) : m.id = i := by
  induction ls with
  | nil => cases h
  | cons a rest ih =>
    unfold findLine at h
    by_cases ha : a.id = i
    · rw [if_pos ha] at h; cases h; exact ha
    · rw [if_neg ha] at h; exact ih h

theorem findLineByItem_some_item (ls : List WOLine) (it : Nat) (m : WOLine)
    (h : findLineByItem ls it = some m) : m.item_id = it := by
  induction ls with
  | nil => cases h
  | cons a rest ih =>
    unfold findLineByItem at h
    by_cases ha : a.item_id = it
    · rw [if_pos ha] at h; cases h; exact ha
    · rw [if_neg ha] at h; exact ih h

theorem findLineByItem_update (ls : List WOLine) (lid it : Nat)
    (wol wol' : WOLine) (h3 : wol'.item_id = wol.item_id)
    (h1 : findLine ls lid = some wol)
    (h2 : findLineByItem ls it = some wol) :
    findLineByItem (updateLine ls lid wol') it = some wol' := by
  have hid : wol.id = lid := findLine_some_id ls lid wol h1
  have hit : wol.item_id = it := findLineByItem_some_item ls it wol h2
  revert h1 h2
  induction ls with
  | nil => intro h1 _; cases h1
  | cons a rest ih =>
    intro h1 h2
    by_cases hAid : a.id = lid
    · have haw : a = wol := by
        unfold findLine at h1
        rw [if_pos hAid] at h1
        exact (Option.some.injEq _ _).mp h1
      unfold updateLine
      simp only [List.map_cons]
      rw [if_pos hAid]
      unfold findLineByItem
      rw [if_pos (h3.trans hit)]
    · have hAit : a.item_id ≠ it := by
        intro hcontra
        unfold findLineByItem at h2
        rw [if_pos hcontra] at h2
        have haw : a = wol := (Option.some.injEq _ _).mp h2
        exact hAid (haw ▸ hid)
      unfold findLine at h1
      rw [if_neg hAid] at h1
      unfold findLineByItem at h2
      rw [if_neg hAit] at h2
      unfold updateLine
      simp only [List.map_cons]
      rw [if_neg hAid]
      unfold findLineByItem
      rw [if_neg hAit]
      exact ih h1 h2

/-- C10: when consume is called with a line backed by an ACTIVE
reservation of matching item and location with
reservation.quantity ≥ qty, consumption succeeds even though
on_hand - reserved < qty before the call: the reservation's hold is
first released (reserved decremented by qty), so the OUT movement's
availability check passes, and the snapshot ends at
(on_hand - qty, reserved - qty).  The ledger consistency facts
qty ≤ snapshot.reserved, reserved ≤ on_hand (which give
on_hand ≥ qty) and the line-cache facts are hypotheses. -/
theorem consumeReserved_spec (w : World) (act : Nat) (ln : ConsumeLine)
    (rid : Nat) (res : Reservation) (snap : Snap) (wol : WOLine)
    (hstat : w.wo_status = .APPROVED ∨ w.wo_status = .IN_PROGRESS)
    (hlid : ln.reservation_id = some rid)
    (hres : findRes w.reservations rid = some res)
    (hact : res.status = .ACTIVE)
    (hitem : res.item_id = ln.item_id)
    (hloc : res.location_id = ln.location_id)
    (hq : 0 < ln.qty)
    (hrq : ln.qty ≤ res.quantity)
    (hsnap : findSnap w.ledger.snaps (ln.item_id, ln.location_id) = some snap)
    (hsr : ln.qty ≤ snap.reserved)
    (hinv : snap.reserved ≤ snap.on_hand)
    (_htight : snap.on_hand - snap.reserved < ln.qty)
    (hwol : findLine w.lines res.line_id = some wol)
    (hwolr : ln.qty ≤ wol.qty_reserved)
    (hwi : findLineByItem w.lines ln.item_id = some wol) :
    ∃ w', consume w (some act) [ln] = .ok w' ∧
      findSnap w'.ledger.snaps (ln.item_id, ln.location_id) =
        some ⟨snap.on_hand - ln.qty, snap.reserved - ln.qty⟩ := by
  have c1 : ¬ (ln.qty ≤ 0) := not_le.mpr hq
  have c2 : ¬ (res.status ≠ ResStatus.ACTIVE) := by rw [hact]; simp
  have c3 : ¬ (res.item_id ≠ ln.item_id) := by rw [hitem]; simp
  have c4 : ¬ (res.location_id ≠ ln.location_id) := by rw [hloc]; simp
  have c5 : ¬ (res.quantity < ln.qty) := not_lt.mpr hrq
  have c6 : ¬ (snap.reserved < ln.qty) := not_lt.mpr hsr
  have c7 : ¬ (wol.qty_reserved < ln.qty) := not_lt.mpr hwolr
  have c8 : ¬ (snap.on_hand - (snap.reserved - ln.qty) < ln.qty) := by omega
  have hg : getOrCreateSnap
      (putSnap w.ledger.snaps (ln.item_id, ln.location_id)
        ⟨snap.on_hand, snap.reserved - ln.qty⟩)
      (ln.item_id, ln.location_id) =
      (⟨snap.on_hand, snap.reserved - ln.qty⟩,
       putSnap w.ledger.snaps (ln.item_id, ln.location_id)
        ⟨snap.on_hand, snap.reserved - ln.qty⟩) := by
    unfold getOrCreateSnap
    rw [findSnap_put, if_pos rfl]
  have hfl : findLineByItem
      (updateLine w.lines res.line_id
        { wol with qty_reserved := wol.qty_reserved - ln.qty })
      ln.item_id =
      some { wol with qty_reserved := wol.qty_reserved - ln.qty } :=
    findLineByItem_update w.lines res.line_id ln.item_id wol _ rfl hwol hwi
  rcases hstat with hA | hI
  · simp only [consume, consumeLines, consume_line, register_movement,
      List.isEmpty_cons, hA, hlid, hres, hsnap, hwol, if_neg c1, if_neg c2,
      if_neg c3, if_neg c4, if_neg c5, if_neg c6, if_neg c7, hg, hfl]
    simp only [if_neg c8, Bool.false_eq_true, if_false, true_or, or_true,
      if_true, eq_self_iff_true]
    exact ⟨_, rfl, by rw [findSnap_put, if_pos rfl]⟩
  · have c9 : (WOStatus.IN_PROGRESS = WOStatus.APPROVED) = False := by simp
    simp only [consume, consumeLines, consume_line, register_movement,
      List.isEmpty_cons, hI, hlid, hres, hsnap, hwol, if_neg c1, if_neg c2,
      if_neg c3, if_neg c4, if_neg c5, if_neg c6, if_neg c7, hg, hfl]
    simp only [if_neg c8, Bool.false_eq_true, if_false, true_or, or_true,
      if_true, c9]
    exact ⟨_, rfl, by rw [findSnap_put, if_pos rfl]⟩

/-- Witness for C10 on `W10`: available is 0 but the line is backed by
the ACTIVE reservation of 5.000, so consuming 3.000 succeeds and the
snapshot ends at (2.000, 2.000). -/
theorem consumeReserved_spec_witness :
    ∃ w', consume W10 (some 9) [⟨1, 1, 3000, some 1⟩] = .ok w' ∧
      findSnap w'.ledger.snaps (1, 1) = some ⟨2000, 2000⟩ :=
  consumeReserved_spec W10 9 ⟨1, 1, 3000, some 1⟩ 1
    ⟨1, 1, 1, 1, 5000, .ACTIVE⟩ ⟨5000, 5000⟩ ⟨1, 1, 5000, 5000, 0, 0⟩
    (Or.inr rfl) rfl rfl rfl rfl rfl (by norm_num) (by norm_num) rfl
    (by norm_num) (by norm_num) (by norm_num) rfl (by norm_num) rfl

theorem release_reservation_active_shape (w : World) (rid : Nat)
    (w1 : World) (res' : Reservation)
    (h : release_reservation w rid none = .ok (w1, res')) :
    ∀ r ∈ w1.reservations, r.status = .ACTIVE →
      r.id ≠ rid ∧ r ∈ w.reservations ∧ r.status = .ACTIVE := by
  unfold release_reservation at h
  cases hfr : findRes w.reservations rid with
  | none => rw [hfr] at h; cases h
  | some res0 =>
    simp only [hfr] at h
    by_cases h1 : res0.status ≠ ResStatus.ACTIVE
    · rw [if_pos h1] at h; cases h
    rw [if_neg h1] at h
    simp only [Option.getD_none] at h
    by_cases h2 : res0.quantity ≤ 0
    · rw [if_pos h2] at h; cases h
    rw [if_neg h2] at h
    rw [if_neg (lt_irrefl res0.quantity)] at h
    cases hfs : findSnap w.ledger.snaps (res0.item_id, res0.location_id) with
    | none => rw [hfs] at h; cases h
    | some snap =>
      simp only [hfs] at h
      by_cases h3 : snap.reserved < res0.quantity
      · rw [if_pos h3] at h; cases h
      rw [if_neg h3] at h
      rw [sub_self, if_pos rfl] at h
      cases hfl : findLine w.lines res0.line_id with
      | none => rw [hfl] at h; cases h
      | some line =>
        simp only [hfl] at h
        by_cases h4 : line.qty_reserved < res0.quantity
        · rw [if_pos h4] at h; cases h
        rw [if_neg h4] at h
        have hpair := (Except.ok.injEq _ _).mp h
        have hw1 : w1 = { w with
            ledger := { w.ledger with
              snaps := putSnap w.ledger.snaps
                (res0.item_id, res0.location_id)
                { snap with reserved := snap.reserved - res0.quantity } },
            reservations := updateRes w.reservations rid
              { res0 with status := .RELEASED },
            lines := updateLine w.lines res0.line_id
              { line with qty_reserved :=
                  line.qty_reserved - res0.quantity } } := by
          have := congrArg Prod.fst hpair
          exact this.symm
        intro r hr hact
        rw [hw1] at hr
        simp only [updateRes] at hr
        obtain ⟨orig, horig, heq⟩ := List.mem_map.mp hr
        by_cases ho : orig.id = rid
        · rw [if_pos ho] at heq
          rw [← heq] at hact
          cases hact
        · rw [if_neg ho] at heq
          subst heq
          exact ⟨ho, horig, hact⟩

theorem releaseAll_no_active (ids : List Nat) :
    ∀ (w w' : World), releaseAll w ids = .ok w' →
    (∀ r ∈ w.reservations, r.status = .ACTIVE → r.id ∈ ids) →
    ∀ r ∈ w'.reservations, r.status ≠ .ACTIVE := by
  induction ids with
  | nil =>
    intro w w' h hsub r hr hact
    unfold releaseAll at h
    cases h
    exact absurd (hsub r hr hact) (List.not_mem_nil _)
  | cons rid rest ih =>
    intro w w' h hsub
    unfold releaseAll at h
    cases hstep : release_reservation w rid none with
    | error e => rw [hstep] at h; cases h
    | ok p =>
      obtain ⟨w1, res'⟩ := p
      rw [hstep] at h
      apply ih w1 w' h
      intro r hr hact
      obtain ⟨hne, hmem, hact'⟩ :=
        release_reservation_active_shape w rid w1 res' hstep r hr hact
      rcases List.mem_cons.mp (hsub r hmem hact') with h0 | h0
      · exact absurd h0 hne
      · exact h0

/-- C5 counterexample: the claim says that for every work order whose
status is outside DRAFT and APPROVED the cancel transition fails; but
cancel on an already-CANCELLED work order returns it unchanged without
any error (workorder_workflow_service.py lines 97-98). -/
theorem cancel_cancelled_noop :
    W5cancelled.wo_status ≠ .DRAFT ∧ W5cancelled.wo_status ≠ .APPROVED ∧
    cancel W5cancelled = .ok W5cancelled := by
  refine ⟨by decide, by decide, rfl⟩

/-- C5 amended: cancel succeeds only from DRAFT or APPROVED and only
when no consumption (issue line) exists, releasing every ACTIVE
reservation before setting status CANCELLED; from IN_PROGRESS, PAUSED or
COMPLETED it fails with the invalid-transition error, and on an
already-CANCELLED work order it is an accepted no-op (returns the work
order unchanged, no error). -/
theorem cancel_spec (w : World) :
    ((w.wo_status = .IN_PROGRESS ∨ w.wo_status = .PAUSED ∨
        w.wo_status = .COMPLETED) →
      cancel w = .error .cancelBadStatus)
    ∧ (w.wo_status = .CANCELLED → cancel w = .ok w)
    ∧ ((w.wo_status = .DRAFT ∨ w.wo_status = .APPROVED) →
        w.issue_lines ≠ [] → cancel w = .error .cancelHasConsumption)
    ∧ (∀ w', cancel w = .ok w' → w.wo_status ≠ .CANCELLED →
        w'.wo_status = .CANCELLED ∧
        (w.wo_status = .DRAFT ∨ w.wo_status = .APPROVED) ∧
        w.issue_lines = [] ∧
        ∀ r ∈ w'.reservations, r.status ≠ .ACTIVE) := by
  refine ⟨?_, ?_, ?_, ?_⟩
  · intro h
    rcases h with h | h | h <;> simp [cancel, h]
  · intro h
    unfold cancel
    rw [if_pos h]
  · intro hd hne
    have hlen : 0 < w.issue_lines.length := List.length_pos.mpr hne
    rcases hd with h | h <;> simp [cancel, h, hlen]
  · intro w' hok hnc
    unfold cancel at hok
    rw [if_neg hnc] at hok
    by_cases hd : w.wo_status = .DRAFT ∨ w.wo_status = .APPROVED
    · rw [if_neg (not_not_intro hd)] at hok
      by_cases hc : 0 < w.issue_lines.length
      · rw [if_pos hc] at hok; cases hok
      · rw [if_neg hc] at hok
        have hnil : w.issue_lines = [] := by
          have hz : w.issue_lines.length = 0 := by omega
          exact List.eq_nil_of_length_eq_zero hz
        cases hra : releaseAll w ((w.reservations.filter fun r =>
            r.status = .ACTIVE).map (·.id)) with
        | error e => rw [hra] at hok; cases hok
        | ok w1 =>
          rw [hra] at hok
          have hw' : w' = { w1 with wo_status := .CANCELLED } :=
            ((Except.ok.injEq _ _).mp hok).symm
          subst hw'
          refine ⟨rfl, hd, hnil, ?_⟩
          intro r hr
          refine releaseAll_no_active _ w w1 hra ?_ r hr
          intro r0 hr0 hact0
          refine List.mem_map_of_mem _ (List.mem_filter.mpr ⟨hr0, ?_⟩)
          simp [hact0]
    · rw [if_pos hd] at hok
      cases hok

/-- Witness for C5's amended statement: cancelling the DRAFT work order
`W5` succeeds, releases its ACTIVE reservation and flips the status. -/
theorem cancel_spec_witness :
    cancel W5 = .ok W5res ∧ W5.wo_status ≠ .CANCELLED ∧
    (W5res.wo_status = .CANCELLED ∧
     (W5.wo_status = .DRAFT ∨ W5.wo_status = .APPROVED) ∧
     W5.issue_lines = [] ∧
     ∀ r ∈ W5res.reservations, r.status ≠ .ACTIVE) :=
  ⟨rfl, by decide, (cancel_spec W5).2.2.2 W5res rfl (by decide)⟩

theorem snapAt_valid {l : Ledger} (hinv : LedgerInv l) (k : Nat × Nat) :
    SnapValid (snapAt l k) := by
  unfold snapAt
  cases h : findSnap l.snaps k with
  | none => exact snapValid_zero
  | some s => exact hinv.1 k s h

theorem movePos_append {ms1 ms2 : List Movement}
    (h1 : ∀ m ∈ ms1, 0 < m.quantity) (h2 : ∀ m ∈ ms2, 0 < m.quantity) :
    ∀ m ∈ ms1 ++ ms2, 0 < m.quantity := by
  intro m hm
  rcases List.mem_append.mp hm with h | h
  · exact h1 m h
  · exact h2 m h

theorem movePos_mark {ls : List Movement} (mid : Nat)
    (h : ∀ m ∈ ls, 0 < m.quantity) :
    ∀ m ∈ ls.map (fun r =>
      if r.id = mid then { r with is_void := true } else r),
      0 < m.quantity := by
  intro m hm
  obtain ⟨a, ha, rfl⟩ := List.mem_map.mp hm
  by_cases hid : a.id = mid
  · rw [if_pos hid]
    exact h a ha
  · rw [if_neg hid]
    exact h a ha

theorem adjust_delta_never_ok (l : Ledger)
    (item location registered_by : Option Nat) (d : Int) (reason : String)
    (p : Ledger × StockResult) :
    adjust_delta l item location registered_by d reason = .ok p → False := by
  intro h
  rcases item with _ | i
  · simp only [adjust_delta] at h; cases h
  rcases location with _ | loc
  · simp only [adjust_delta] at h; cases h
  rcases registered_by with _ | act
  · simp only [adjust_delta] at h; cases h
  by_cases h1 : d = 0
  · simp only [adjust_delta, if_pos h1] at h; cases h
  by_cases h2 : blank reason
  · simp only [adjust_delta, if_neg h1, if_pos h2] at h; cases h
  rcases hG : getOrCreateSnap l.snaps (i, loc) with ⟨s0, sn1⟩
  by_cases h3 : s0.on_hand + d < s0.reserved
  · simp only [adjust_delta, if_neg h1, if_neg h2, hG, if_pos h3] at h
    cases h
  by_cases h4 : s0.on_hand + d < 0
  · simp only [adjust_delta, if_neg h1, if_neg h2, hG, if_neg h3,
      if_pos h4] at h
    cases h
  simp only [adjust_delta, if_neg h1, if_neg h2, hG, if_neg h3,
    if_neg h4] at h
  cases h

theorem adjust_set_never_ok (l : Ledger)
    (item location registered_by : Option Nat) (v : Option Int)
    (reason : String) (p : Ledger × StockResult) :
    adjust_set l item location registered_by v reason = .ok p → False := by
  intro h
  rcases item with _ | i
  · simp only [adjust_set] at h; cases h
  rcases location with _ | loc
  · simp only [adjust_set] at h; cases h
  rcases registered_by with _ | act
  · simp only [adjust_set] at h; cases h
  rcases v with _ | v0
  · simp only [adjust_set] at h; cases h
  by_cases h1 : v0 < 0
  · simp only [adjust_set, if_pos h1] at h; cases h
  by_cases h2 : blank reason
  · simp only [adjust_set, if_neg h1, if_pos h2] at h; cases h
  rcases hG : getOrCreateSnap l.snaps (i, loc) with ⟨s0, sn1⟩
  by_cases h3 : v0 < s0.reserved
  · simp only [adjust_set, if_neg h1, if_neg h2, hG, if_pos h3] at h
    cases h
  simp only [adjust_set, if_neg h1, if_neg h2, hG, if_neg h3] at h
  cases h

theorem register_movement_inv (l : Ledger)
    (item location registered_by : Option Nat) (mt : MovementType)
    (q : Int) (l' : Ledger) (r : StockResult) (hinv : LedgerInv l)
    (h : register_movement l item location registered_by mt q =
      .ok (l', r)) : LedgerInv l' := by
  rcases item with _ | i
  · simp only [register_movement] at h; cases h
  rcases location with _ | loc
  · simp only [register_movement] at h; cases h
  rcases registered_by with _ | act
  · simp only [register_movement] at h; cases h
  by_cases hq : q ≤ 0
  · simp only [register_movement, if_pos hq] at h; cases h
  rcases hG : getOrCreateSnap l.snaps (i, loc) with ⟨s0, sn1⟩
  have hs0 : SnapValid s0 := by
    have h1 := invSnaps_getOrCreate_fst hinv.1 (i, loc)
    rw [hG] at h1
    exact h1
  have hsn1 : ∀ k s, findSnap sn1 k = some s → SnapValid s := by
    have h1 := invSnaps_getOrCreate_snd hinv.1 (i, loc)
    rw [hG] at h1
    exact h1
  cases mt with
  | IN_ =>
    simp only [register_movement, if_neg hq, hG] at h
    have hl' : l' = Ledger.mk
        (putSnap sn1 (i, loc) { s0 with on_hand := s0.on_hand + q })
        (l.movements ++ [⟨l.next_id, i, some loc, .IN_, q, false, none⟩])
        (l.next_id + 1) := by
      have := congrArg Prod.fst ((Except.ok.injEq _ _).mp h)
      exact this.symm
    rw [hl']
    refine ⟨invSnaps_put hsn1 _ ?_, movePos_append hinv.2 ?_⟩
    · exact ⟨hs0.1, by have := hs0.2; simp only []; omega⟩
    · intro m hm
      rcases List.mem_singleton.mp hm with rfl
      simpa using by omega
  | OUT =>
    by_cases ha : q > s0.on_hand - s0.reserved
    · simp only [register_movement, if_neg hq, hG, if_pos ha] at h
      cases h
    · simp only [register_movement, if_neg hq, hG, if_neg ha] at h
      have hl' : l' = Ledger.mk
          (putSnap sn1 (i, loc) { s0 with on_hand := s0.on_hand - q })
          (l.movements ++ [⟨l.next_id, i, some loc, .OUT, q, false, none⟩])
          (l.next_id + 1) := by
        have := congrArg Prod.fst ((Except.ok.injEq _ _).mp h)
        exact this.symm
      rw [hl']
      refine ⟨invSnaps_put hsn1 _ ?_, movePos_append hinv.2 ?_⟩
      · exact ⟨hs0.1, by have := hs0.2; simp only []; omega⟩
      · intro m hm
        rcases List.mem_singleton.mp hm with rfl
        simpa using by omega
  | ADJ =>
    simp only [register_movement, if_neg hq, hG] at h
    cases h

theorem stock_reserve_inv (l : Ledger)
    (item location reserved_by : Option Nat) (q : Int) (l' : Ledger)
    (r : ReserveResult) (hinv : LedgerInv l)
    (h : stock_reserve l item location reserved_by q = .ok (l', r)) :
    LedgerInv l' := by
  rcases item with _ | i
  · simp only [stock_reserve] at h; cases h
  rcases location with _ | loc
  · simp only [stock_reserve] at h; cases h
  rcases reserved_by with _ | act
  · simp only [stock_reserve] at h; cases h
  by_cases hq : q ≤ 0
  · simp only [stock_reserve, if_pos hq] at h; cases h
  rcases hG : getOrCreateSnap l.snaps (i, loc) with ⟨s0, sn1⟩
  have hs0 : SnapValid s0 := by
    have h1 := invSnaps_getOrCreate_fst hinv.1 (i, loc)
    rw [hG] at h1
    exact h1
  have hsn1 : ∀ k s, findSnap sn1 k = some s → SnapValid s := by
    have h1 := invSnaps_getOrCreate_snd hinv.1 (i, loc)
    rw [hG] at h1
    exact h1
  by_cases ha : q > s0.on_hand - s0.reserved
  · simp only [stock_reserve, if_neg hq, hG, if_pos ha] at h; cases h
  simp only [stock_reserve, if_neg hq, hG, if_neg ha] at h
  have hl' : l' = Ledger.mk
      (putSnap sn1 (i, loc) { s0 with reserved := s0.reserved + q })
      l.movements l.next_id := by
    have := congrArg Prod.fst ((Except.ok.injEq _ _).mp h)
    exact this.symm
  rw [hl']
  refine ⟨invSnaps_put hsn1 _ ?_, hinv.2⟩
  exact ⟨by have := hs0.1; simp only []; omega,
         by have := hs0.2; simp only []; omega⟩

theorem stock_release_inv (l : Ledger)
    (item location released_by : Option Nat) (q : Int) (l' : Ledger)
    (r : ReserveResult) (hinv : LedgerInv l)
    (h : stock_release l item location released_by q = .ok (l', r)) :
    LedgerInv l' := by
  rcases item with _ | i
  · simp only [stock_release] at h; cases h
  rcases location with _ | loc
  · simp only [stock_release] at h; cases h
  rcases released_by with _ | act
  · simp only [stock_release] at h; cases h
  by_cases hq : q ≤ 0
  · simp only [stock_release, if_pos hq] at h; cases h
  rcases hG : getOrCreateSnap l.snaps (i, loc) with ⟨s0, sn1⟩
  have hs0 : SnapValid s0 := by
    have h1 := invSnaps_getOrCreate_fst hinv.1 (i, loc)
    rw [hG] at h1
    exact h1
  have hsn1 : ∀ k s, findSnap sn1 k = some s → SnapValid s := by
    have h1 := invSnaps_getOrCreate_snd hinv.1 (i, loc)
    rw [hG] at h1
    exact h1
  by_cases ha : q > s0.reserved
  · simp only [stock_release, if_neg hq, hG, if_pos ha] at h; cases h
  simp only [stock_release, if_neg hq, hG, if_neg ha] at h
  have hl' : l' = Ledger.mk
      (putSnap sn1 (i, loc) { s0 with reserved := s0.reserved - q })
      l.movements l.next_id := by
    have := congrArg Prod.fst ((Except.ok.injEq _ _).mp h)
    exact this.symm
  rw [hl']
  refine ⟨invSnaps_put hsn1 _ ?_, hinv.2⟩
  exact ⟨by have := hs0.1; simp only []; omega,
         by have h1 := hs0.1; have h2 := hs0.2; simp only []; omega⟩

theorem transfer_inv (l : Ledger) (item floc tloc : Option Nat) (q : Int)
    (act : Option Nat) (l' : Ledger) (r : TransferResult)
    (hinv : LedgerInv l)
    (h : transfer l item floc tloc q act = .ok (l', r)) : LedgerInv l' := by
  rcases floc with _ | f
  · simp only [transfer] at h; cases h
  rcases tloc with _ | t
  · simp only [transfer] at h; cases h
  by_cases hft : f = t
  · simp only [transfer, if_pos hft] at h; cases h
  rcases item with _ | i
  · simp only [transfer, if_neg hft] at h; cases h
  rcases act with _ | a
  · simp only [transfer, if_neg hft] at h; cases h
  by_cases hq : q ≤ 0
  · simp only [transfer, if_neg hft, if_pos hq] at h; cases h
  have hq0 : 0 < q := by omega
  rw [transfer_reduce l i f t a q hft hq0] at h
  by_cases ha : q > (snapAt l (i, f)).on_hand - (snapAt l (i, f)).reserved
  · rw [if_pos ha] at h; cases h
  rw [if_neg ha] at h
  injection h with h2
  injection h2 with h3 h4
  subst h3
  have hvf := snapAt_valid hinv (i, f)
  have hvt := snapAt_valid hinv (i, t)
  refine ⟨?_, ?_⟩
  · apply invSnaps_put
    · apply invSnaps_put
      · exact invSnaps_getOrCreate_snd
          (invSnaps_getOrCreate_snd hinv.1 (i, min f t)) (i, max f t)
      · exact ⟨hvf.1, by have := hvf.2; simp only []; omega⟩
    · exact ⟨hvt.1, by have := hvt.2; simp only []; omega⟩
  · apply movePos_append hinv.2
    intro m hm
    rcases List.mem_cons.mp hm with rfl | hm2
    · exact hq0
    · rcases List.mem_singleton.mp hm2 with rfl
      exact hq0

theorem void_movement_inv (l : Ledger) (movement : Option Nat)
    (reason : String) (l' : Ledger) (r : VoidResult) (hinv : LedgerInv l)
    (h : void_movement l movement reason = .ok (l', r)) : LedgerInv l' := by
  rcases movement with _ | mid
  · simp only [void_movement] at h; cases h
  cases hfm : findMovement l.movements mid with
  | none => simp only [void_movement, hfm] at h; cases h
  | some m =>
    have hmq : 0 < m.quantity := hinv.2 m (findMovement_mem _ _ _ hfm).1
    by_cases hv : m.is_void
    · simp only [void_movement, hfm, if_pos hv] at h; cases h
    by_cases hrev : hasReversal l.movements mid
    · simp only [void_movement, hfm, if_neg hv, if_pos hrev] at h; cases h
    by_cases hblank : blank reason
    · simp only [void_movement, hfm, if_neg hv, if_neg hrev,
        if_pos hblank] at h
      cases h
    rcases hloc : m.location_id with _ | loc
    · simp only [void_movement, hfm, if_neg hv, if_neg hrev, if_neg hblank,
        hloc] at h
      cases h
    rcases hG : getOrCreateSnap l.snaps (m.item_id, loc) with ⟨s0, sn1⟩
    have hs0 : SnapValid s0 := by
      have h1 := invSnaps_getOrCreate_fst hinv.1 (m.item_id, loc)
      rw [hG] at h1
      exact h1
    have hsn1 : ∀ k s, findSnap sn1 k = some s → SnapValid s := by
      have h1 := invSnaps_getOrCreate_snd hinv.1 (m.item_id, loc)
      rw [hG] at h1
      exact h1
    have hmark := movePos_mark mid hinv.2
    cases hmt : m.movement_type with
    | IN_ =>
      by_cases havail : m.quantity > s0.on_hand - s0.reserved
      · simp only [void_movement, hfm, if_neg hv, if_neg hrev,
          if_neg hblank, hloc, hG, hmt, if_pos havail] at h
        cases h
      · simp only [void_movement, hfm, if_neg hv, if_neg hrev,
          if_neg hblank, hloc, hG, hmt, if_neg havail] at h
        injection h with h2
        injection h2 with h3 h4
        subst h3
        refine ⟨?_, ?_⟩
        · apply invSnaps_put hsn1
          exact ⟨hs0.1, by have := hs0.2; simp only []; omega⟩
        · apply movePos_append hmark
          intro mm hmm
          rcases List.mem_singleton.mp hmm with rfl
          exact hmq
    | OUT =>
      simp only [void_movement, hfm, if_neg hv, if_neg hrev, if_neg hblank,
        hloc, hG, hmt] at h
      injection h with h2
      injection h2 with h3 h4
      subst h3
      refine ⟨?_, ?_⟩
      · apply invSnaps_put hsn1
        refine ⟨hs0.1, ?_⟩
        have h1 := hs0.1
        have h2 := hs0.2
        simp only []
        omega
      · apply movePos_append hmark
        intro mm hmm
        rcases List.mem_singleton.mp hmm with rfl
        exact hmq
    | ADJ =>
      simp only [void_movement, hfm, if_neg hv, if_neg hrev, if_neg hblank,
        hloc, hG, hmt] at h
      cases h

theorem wo_reserve_inv (w : World) (line_id : Nat) (q : Int)
    (location_id : Option Nat) (w1 : World) (res : Reservation)
    (hinv : LedgerInv w.ledger)
    (h : wo_reserve w line_id q location_id = .ok (w1, res)) :
    LedgerInv w1.ledger := by
  by_cases hq : q ≤ 0
  · simp only [wo_reserve, if_pos hq] at h; cases h
  cases hfl : findLine w.lines line_id with
  | none => simp only [wo_reserve, if_neg hq, hfl] at h; cases h
  | some line =>
    by_cases hstat : w.wo_status = .DRAFT ∨ w.wo_status = .APPROVED ∨
        w.wo_status = .IN_PROGRESS
    · rcases location_id with _ | loc
      · simp only [wo_reserve, if_neg hq, hfl, if_pos hstat] at h; cases h
      cases hfs : findSnap w.ledger.snaps (line.item_id, loc) with
      | none =>
        simp only [wo_reserve, if_neg hq, hfl, if_pos hstat, hfs] at h
        cases h
      | some snap =>
        by_cases ha : snap.on_hand - snap.reserved < q
        · simp only [wo_reserve, if_neg hq, hfl, if_pos hstat, hfs,
            if_pos ha] at h
          cases h
        simp only [wo_reserve, if_neg hq, hfl, if_pos hstat, hfs,
          if_neg ha] at h
        injection h with h2
        injection h2 with h3 h4
        subst h3
        refine ⟨?_, hinv.2⟩
        apply invSnaps_put hinv.1
        have hv := hinv.1 _ _ hfs
        refine ⟨?_, ?_⟩
        · have h5 := hv.1
          simp only []
          omega
        · have h5 := hv.2
          simp only []
          omega
    · simp only [wo_reserve, if_neg hq, hfl, if_neg hstat] at h; cases h

theorem release_reservation_inv (w : World) (rid : Nat) (qty : Option Int)
    (w1 : World) (res' : Reservation) (hinv : LedgerInv w.ledger)
    (h : release_reservation w rid qty = .ok (w1, res')) :
    LedgerInv w1.ledger := by
  cases hfr : findRes w.reservations rid with
  | none => simp only [release_reservation, hfr] at h; cases h
  | some res0 =>
    by_cases h1 : res0.status ≠ ResStatus.ACTIVE
    · simp only [release_reservation, hfr, if_pos h1] at h; cases h
    by_cases h2 : qty.getD res0.quantity ≤ 0
    · simp only [release_reservation, hfr, if_neg h1, if_pos h2] at h
      cases h
    by_cases h3 : qty.getD res0.quantity > res0.quantity
    · simp only [release_reservation, hfr, if_neg h1, if_neg h2,
        if_pos h3] at h
      cases h
    cases hfs : findSnap w.ledger.snaps (res0.item_id, res0.location_id) with
    | none =>
      simp only [release_reservation, hfr, if_neg h1, if_neg h2, if_neg h3,
        hfs] at h
      cases h
    | some snap =>
      by_cases h4 : snap.reserved < qty.getD res0.quantity
      · simp only [release_reservation, hfr, if_neg h1, if_neg h2,
          if_neg h3, hfs, if_pos h4] at h
        cases h
      cases hfl : findLine w.lines res0.line_id with
      | none =>
        simp only [release_reservation, hfr, if_neg h1, if_neg h2,
          if_neg h3, hfs, if_neg h4, hfl] at h
        cases h
      | some line =>
        by_cases h5 : line.qty_reserved < qty.getD res0.quantity
        · simp only [release_reservation, hfr, if_neg h1, if_neg h2,
            if_neg h3, hfs, if_neg h4, hfl, if_pos h5] at h
          cases h
        simp only [release_reservation, hfr, if_neg h1, if_neg h2,
          if_neg h3, hfs, if_neg h4, hfl, if_neg h5] at h
        injection h with h6
        injection h6 with h7 h8
        subst h7
        refine ⟨?_, hinv.2⟩
        apply invSnaps_put hinv.1
        have hv := hinv.1 _ _ hfs
        refine ⟨?_, ?_⟩
        · have h9 := hv.1
          simp only []
          omega
        · have h9 := hv.1
          have h10 := hv.2
          simp only []
          omega

theorem consume_line_inv (w : World) (act : Option Nat) (ln : ConsumeLine)
    (w2 : World) (hinv : LedgerInv w.ledger)
    (h : consume_line w act ln = .ok w2) : LedgerInv w2.ledger := by
  by_cases hq : ln.qty ≤ 0
  · simp only [consume_line, if_pos hq] at h; cases h
  rcases hrid : ln.reservation_id with _ | rid
  · simp only [consume_line, if_neg hq, hrid] at h
    cases hreg : register_movement w.ledger (some ln.item_id)
        (some ln.location_id) act .OUT ln.qty with
    | error e => simp only [hreg] at h; cases h
    | ok p =>
      obtain ⟨ledger', result⟩ := p
      simp only [hreg] at h
      cases hfl2 : findLineByItem w.lines ln.item_id with
      | none => simp only [hfl2] at h; cases h
      | some wol2 =>
        simp only [hfl2] at h
        injection h with h2
        subst h2
        exact register_movement_inv _ _ _ _ _ _ _ _ hinv hreg
  · cases hfr : findRes w.reservations rid with
    | none => simp only [consume_line, if_neg hq, hrid, hfr] at h; cases h
    | some res =>
      by_cases c2 : res.status ≠ ResStatus.ACTIVE
      · simp only [consume_line, if_neg hq, hrid, hfr, if_pos c2] at h
        cases h
      by_cases c3 : res.item_id ≠ ln.item_id
      · simp only [consume_line, if_neg hq, hrid, hfr, if_neg c2,
          if_pos c3] at h
        cases h
      by_cases c4 : res.location_id ≠ ln.location_id
      · simp only [consume_line, if_neg hq, hrid, hfr, if_neg c2,
          if_neg c3, if_pos c4] at h
        cases h
      by_cases c5 : res.quantity < ln.qty
      · simp only [consume_line, if_neg hq, hrid, hfr, if_neg c2,
          if_neg c3, if_neg c4, if_pos c5] at h
        cases h
      cases hfs : findSnap w.ledger.snaps (ln.item_id, ln.location_id) with
      | none =>
        simp only [consume_line, if_neg hq, hrid, hfr, if_neg c2,
          if_neg c3, if_neg c4, if_neg c5, hfs] at h
        cases h
      | some snap =>
        by_cases c6 : snap.reserved < ln.qty
        · simp only [consume_line, if_neg hq, hrid, hfr, if_neg c2,
            if_neg c3, if_neg c4, if_neg c5, hfs, if_pos c6] at h
          cases h
        cases hfl : findLine w.lines res.line_id with
        | none =>
          simp only [consume_line, if_neg hq, hrid, hfr, if_neg c2,
            if_neg c3, if_neg c4, if_neg c5, hfs, if_neg c6, hfl] at h
          cases h
        | some wol =>
          by_cases c7 : wol.qty_reserved < ln.qty
          · simp only [consume_line, if_neg hq, hrid, hfr, if_neg c2,
              if_neg c3, if_neg c4, if_neg c5, hfs, if_neg c6, hfl,
              if_pos c7] at h
            cases h
          simp only [consume_line, if_neg hq, hrid, hfr, if_neg c2,
            if_neg c3, if_neg c4, if_neg c5, hfs, if_neg c6, hfl,
            if_neg c7] at h
          have hinv1 : LedgerInv (Ledger.mk
              (putSnap w.ledger.snaps (ln.item_id, ln.location_id)
                ⟨snap.on_hand, snap.reserved - ln.qty⟩)
              w.ledger.movements w.ledger.next_id) := by
            refine ⟨?_, hinv.2⟩
            apply invSnaps_put hinv.1
            have hv := hinv.1 _ _ hfs
            refine ⟨?_, ?_⟩
            · have h9 := hv.1
              simp only []
              omega
            · have h9 := hv.1
              have h10 := hv.2
              simp only []
              omega
          cases hreg : register_movement (Ledger.mk
              (putSnap w.ledger.snaps (ln.item_id, ln.location_id)
                ⟨snap.on_hand, snap.reserved - ln.qty⟩)
              w.ledger.movements w.ledger.next_id) (some ln.item_id)
              (some ln.location_id) act .OUT ln.qty with
          | error e => simp only [hreg] at h; cases h
          | ok p =>
            obtain ⟨ledger', result⟩ := p
            simp only [hreg] at h
            cases hfl2 : findLineByItem
                (updateLine w.lines res.line_id
                  { wol with qty_reserved := wol.qty_reserved - ln.qty })
                ln.item_id with
            | none => simp only [hfl2] at h; cases h
            | some wol2 =>
              simp only [hfl2] at h
              injection h with h2
              subst h2
              exact register_movement_inv _ _ _ _ _ _ _ _ hinv1 hreg

theorem consumeLines_inv (act : Option Nat) (lines : List ConsumeLine) :
    ∀ (w w' : World), LedgerInv w.ledger →
    consumeLines act w lines = .ok w' → LedgerInv w'.ledger := by
  induction lines with
  | nil =>
    intro w w' hinv h
    unfold consumeLines at h
    cases h
    exact hinv
  | cons ln rest ih =>
    intro w w' hinv h
    unfold consumeLines at h
    cases hstep : consume_line w act ln with
    | error e => rw [hstep] at h; cases h
    | ok w1 =>
      rw [hstep] at h
      exact ih w1 w' (consume_line_inv w act ln w1 hinv hstep) h

theorem consume_inv (w : World) (act : Option Nat)
    (lines : List ConsumeLine) (w' : World) (hinv : LedgerInv w.ledger)
    (h : consume w act lines = .ok w') : LedgerInv w'.ledger := by
  unfold consume at h
  by_cases he : lines.isEmpty
  · rw [if_pos he] at h; cases h
  rw [if_neg he] at h
  by_cases hstat : w.wo_status = .APPROVED ∨ w.wo_status = .IN_PROGRESS
  · rw [if_pos hstat] at h
    cases hcl : consumeLines act w lines with
    | error e => rw [hcl] at h; cases h
    | ok w1 =>
      simp only [hcl] at h
      have h1 := consumeLines_inv act lines w w1 hinv hcl
      by_cases hA : w1.wo_status = .APPROVED
      · rw [if_pos hA] at h
        injection h with h2
        subst h2
        exact h1
      · rw [if_neg hA] at h
        injection h with h2
        subst h2
        exact h1
  · rw [if_neg hstat] at h; cases h

theorem returnLines_inv (act : Option Nat) (lines : List ReturnLineReq) :
    ∀ (w w' : World), LedgerInv w.ledger →
    returnLines act w lines = .ok w' → LedgerInv w'.ledger := by
  induction lines with
  | nil =>
    intro w w' hinv h
    unfold returnLines at h
    cases h
    exact hinv
  | cons ln rest ih =>
    intro w w' hinv h
    unfold returnLines at h
    by_cases hq : ln.qty ≤ 0
    · rw [if_pos hq] at h; cases h
    rw [if_neg hq] at h
    cases hreg : register_movement w.ledger (some ln.item_id)
        (some ln.location_id) act .IN_ ln.qty with
    | error e => simp only [hreg] at h; cases h
    | ok p =>
      obtain ⟨ledger', result⟩ := p
      simp only [hreg] at h
      cases hfl : findLineByItem w.lines ln.item_id with
      | none => simp only [hfl] at h; cases h
      | some wol =>
        simp only [hfl] at h
        exact ih _ w'
          (register_movement_inv _ _ _ _ _ _ _ _ hinv hreg) h

theorem return_to_stock_inv (w : World) (act : Option Nat)
    (lines : List ReturnLineReq) (w' : World) (hinv : LedgerInv w.ledger)
    (h : return_to_stock w act lines = .ok w') : LedgerInv w'.ledger := by
  unfold return_to_stock at h
  by_cases he : lines.isEmpty
  · rw [if_pos he] at h; cases h
  rw [if_neg he] at h
  by_cases hstat : w.wo_status = .IN_PROGRESS ∨ w.wo_status = .COMPLETED
  · rw [if_pos hstat] at h
    exact returnLines_inv act lines w w' hinv h
  · rw [if_neg hstat] at h; cases h

/-- C1: for every StockSnapshot, after any committed ledger operation
(register_movement, transfer, adjust_delta, adjust_set, void_movement,
reserve, release, and the work-order reserve / release / consume /
return paths) the invariant reserved ≤ on_hand and on_hand ≥ 0 holds,
provided the ledger was well formed before the operation (every snapshot
satisfied the model's reserved ≥ 0 field validator together with
reserved ≤ on_hand, and every movement its quantity > 0 validator). -/
theorem stockInvariantPreserved (w : World) (op : LedgerOp) (w' : World)
    (hinv : LedgerInv w.ledger) (h : applyOp w op = .ok w') :
    LedgerInv w'.ledger ∧
    ∀ k s, findSnap w'.ledger.snaps k = some s →
      s.reserved ≤ s.on_hand ∧ 0 ≤ s.on_hand := by
  have hinv' : LedgerInv w'.ledger := by
    cases op with
    | opRegister item location actor mt qty =>
      simp only [applyOp] at h
      cases hop : register_movement w.ledger item location actor mt qty with
      | error e => simp only [hop] at h; cases h
      | ok p =>
        obtain ⟨l', r⟩ := p
        simp only [hop] at h
        injection h with h2
        subst h2
        exact register_movement_inv _ _ _ _ _ _ _ _ hinv hop
    | opTransfer item floc tloc qty actor =>
      simp only [applyOp] at h
      cases hop : transfer w.ledger item floc tloc qty actor with
      | error e => simp only [hop] at h; cases h
      | ok p =>
        obtain ⟨l', r⟩ := p
        simp only [hop] at h
        injection h with h2
        subst h2
        exact transfer_inv _ _ _ _ _ _ _ _ hinv hop
    | opAdjustDelta item location actor delta reason =>
      simp only [applyOp] at h
      cases hop : adjust_delta w.ledger item location actor delta reason with
      | error e => simp only [hop] at h; cases h
      | ok p => exact absurd hop (fun hc =>
          adjust_delta_never_ok _ _ _ _ _ _ _ hc)
    | opAdjustSet item location actor v reason =>
      simp only [applyOp] at h
      cases hop : adjust_set w.ledger item location actor v reason with
      | error e => simp only [hop] at h; cases h
      | ok p => exact absurd hop (fun hc =>
          adjust_set_never_ok _ _ _ _ _ _ _ hc)
    | opVoid movement reason =>
      simp only [applyOp] at h
      cases hop : void_movement w.ledger movement reason with
      | error e => simp only [hop] at h; cases h
      | ok p =>
        obtain ⟨l', r⟩ := p
        simp only [hop] at h
        injection h with h2
        subst h2
        exact void_movement_inv _ _ _ _ _ hinv hop
    | opReserve item location actor qty =>
      simp only [applyOp] at h
      cases hop : stock_reserve w.ledger item location actor qty with
      | error e => simp only [hop] at h; cases h
      | ok p =>
        obtain ⟨l', r⟩ := p
        simp only [hop] at h
        injection h with h2
        subst h2
        exact stock_reserve_inv _ _ _ _ _ _ _ hinv hop
    | opRelease item location actor qty =>
      simp only [applyOp] at h
      cases hop : stock_release w.ledger item location actor qty with
      | error e => simp only [hop] at h; cases h
      | ok p =>
        obtain ⟨l', r⟩ := p
        simp only [hop] at h
        injection h with h2
        subst h2
        exact stock_release_inv _ _ _ _ _ _ _ hinv hop
    | opWoReserve line_id qty location_id =>
      simp only [applyOp] at h
      cases hop : wo_reserve w line_id qty location_id with
      | error e => simp only [hop] at h; cases h
      | ok p =>
        obtain ⟨w1, res⟩ := p
        simp only [hop] at h
        injection h with h2
        subst h2
        exact wo_reserve_inv _ _ _ _ _ _ hinv hop
    | opWoRelease reservation_id qty =>
      simp only [applyOp] at h
      cases hop : release_reservation w reservation_id qty with
      | error e => simp only [hop] at h; cases h
      | ok p =>
        obtain ⟨w1, res⟩ := p
        simp only [hop] at h
        injection h with h2
        subst h2
        exact release_reservation_inv _ _ _ _ _ hinv hop
    | opWoConsume actor lines =>
      simp only [applyOp] at h
      exact consume_inv _ _ _ _ hinv h
    | opWoReturn actor lines =>
      simp only [applyOp] at h
      exact return_to_stock_inv _ _ _ _ hinv h
  refine ⟨hinv', fun k s hf => ?_⟩
  have hv := hinv'.1 k s hf
  exact ⟨hv.2, le_trans hv.1 hv.2⟩

/-- Witness for C1: registering an IN of 2.000 on the well-formed world
`W10` commits, and every snapshot of the committed ledger satisfies
reserved ≤ on_hand and on_hand ≥ 0. -/
theorem stockInvariantPreserved_witness :
    LedgerInv W10.ledger ∧
    applyOp W10 (.opRegister (some 1) (some 1) (some 7) .IN_ 2000) =
      .ok C1res ∧
    (∀ k s, findSnap C1res.ledger.snaps k = some s →
      s.reserved ≤ s.on_hand ∧ 0 ≤ s.on_hand) := by
  have hinvW : LedgerInv W10.ledger := by
    constructor
    · intro k s hf
      simp only [W10, findSnap] at hf
      split at hf
      · cases hf
        exact ⟨by norm_num, by norm_num⟩
      · cases hf
    · intro m hm
      simp [W10] at hm
  exact ⟨hinvW, rfl,
    (stockInvariantPreserved W10
      (.opRegister (some 1) (some 1) (some 7) .IN_ 2000) C1res hinvW rfl).2⟩

end MRO
